import Mathlib

/-!
Verification development for the openair-rs library: a line-based parser and
writer for airspace files in the OpenAir format.

Shallow embedding conventions:
* Rust strings are modeled as `List Char` (`Str`); all inputs of interest are
  ASCII, so byte positions coincide with character positions.
* Rust `f32`/`f64` values are modeled over `ℚ`; `f32` additionally carries the
  IEEE special values (`F32.nan`, `F32.inf`, `F32.negInf`) because the angle
  validation depends on IEEE comparison semantics.  Decimal literals are given
  their exact rational value (binary rounding of the float parser is not
  modeled; all concrete values appearing in the claims are exactly
  representable).
* Fallible Rust functions returning `Result<T, String>` become
  `Except Str T`; internal helpers returning `Result<_, ()>`/`Option` become
  `Option`.
-/

deriving instance DecidableEq for Except

namespace OpenAir

/-- Character strings, modeling Rust `&str`/`String` contents. -/
abbrev Str := List Char

/-- ASCII whitespace test, modeling Rust `char::is_ascii_whitespace` /
`str::trim` on the ASCII inputs of this format. -/
def isWs (c : Char) : Bool :=
  c = ' ' || c = '\t' || c = '\r' || c = '\n'

/-- Model of Rust `str::trim_start`. -/
def trimL (l : Str) : Str := l.dropWhile isWs

/-- Model of Rust `str::trim_end`. -/
def trimR (l : Str) : Str := (l.reverse.dropWhile isWs).reverse

/-- Model of Rust `str::trim`. -/
def trim (l : Str) : Str := trimR (trimL l)

/-- ASCII lowercase conversion of one character, modeling
`u8::to_ascii_lowercase`. -/
def lowerChar (c : Char) : Char :=
  if 'A' ≤ c ∧ c ≤ 'Z' then Char.ofNat (c.toNat + 32) else c

/-- Model of Rust `str::eq_ignore_ascii_case`. -/
def eqIgnoreCase (a b : Str) : Bool :=
  decide (a.map lowerChar = b.map lowerChar)

/-- Model of Rust `str::split_once(c)`. -/
def splitOnceChar (c : Char) : Str → Option (Str × Str)
  | [] => none
  | x :: xs =>
    if x = c then some ([], xs)
    else (splitOnceChar c xs).map (fun p => (x :: p.1, p.2))

/-- Model of Rust `str::split(c)` (always returns at least one piece). -/
def splitChar (c : Char) : Str → List Str
  | [] => [[]]
  | x :: xs =>
    if x = c then [] :: splitChar c xs
    else
      match splitChar c xs with
      | h :: t => (x :: h) :: t
      | [] => [[x]]

/-- Index of the first character satisfying `p`, modeling Rust
`str::find(pattern)`. -/
def findIdxP (p : Char → Bool) : Str → Option ℕ
  | [] => none
  | c :: cs => if p c then some 0 else (findIdxP p cs).map (· + 1)

/-- Numeric value of a decimal digit character. -/
def digitVal (c : Char) : ℕ := c.toNat - 48

/-- Value of a string of decimal digits (most significant first). -/
def digitsVal (l : Str) : ℕ := l.foldl (fun a c => 10 * a + digitVal c) 0

/-- All characters are ASCII decimal digits. -/
def allDigits (l : Str) : Bool := l.all Char.isDigit

/-- Parse a nonempty all-digit string to its value (no sign, no bound). -/
def parseNatDigits (l : Str) : Option ℕ :=
  if l ≠ [] ∧ allDigits l then some (digitsVal l) else none

/-- Drop one optional leading `+` (the sign handling of Rust unsigned
`FromStr`). -/
def stripPlus : Str → Str
  | '+' :: t => t
  | l => l

/-- Model of Rust unsigned-integer `FromStr` with upper bound `max`:
an optional leading `+` followed by decimal digits, rejecting overflow. -/
def parseUnsigned (max : ℕ) (l : Str) : Option ℕ :=
  match parseNatDigits (stripPlus l) with
  | some v => if v ≤ max then some v else none
  | none => none

/-- Model of Rust `u8::from_str`. -/
def parseU8 (l : Str) : Option ℕ := parseUnsigned 255 l

/-- Model of Rust `u16::from_str`. -/
def parseU16 (l : Str) : Option ℕ := parseUnsigned 65535 l

/-- Model of Rust `i32::from_str`: optional sign, digits, two's-complement
bounds. -/
def parseI32 (l : Str) : Option ℤ :=
  match l with
  | '+' :: t =>
    (parseNatDigits t).bind fun v =>
      if v ≤ 2147483647 then some (v : ℤ) else none
  | '-' :: t =>
    (parseNatDigits t).bind fun v =>
      if v ≤ 2147483648 then some (-(v : ℤ)) else none
  | _ =>
    (parseNatDigits l).bind fun v =>
      if v ≤ 2147483647 then some (v : ℤ) else none

/-- Decimal digits of `n`, most significant first (used by the writers to
model Rust integer `Display`). -/
def natDigits (n : ℕ) : Str :=
  if _h : n < 10 then [Nat.digitChar n]
  else natDigits (n / 10) ++ [Nat.digitChar (n % 10)]
  decreasing_by exact Nat.div_lt_self (by omega) (by omega)

/-- Model of Rust `i32` `Display`. -/
def intStr (i : ℤ) : Str :=
  if i < 0 then '-' :: natDigits i.natAbs else natDigits i.natAbs

/-- Zero-padded fixed-width rendering, modeling Rust `{:0w}` format. -/
def padNum (w : ℕ) (n : ℕ) : Str :=
  List.replicate (w - (natDigits n).length) '0' ++ natDigits n

/-- Model of Rust float parsing for an unsigned decimal fragment
(`digits`, `digits.digits`, `.digits`, `digits.`): the exact rational value. -/
def parseDecimalQ (l : Str) : Option ℚ :=
  let ip := l.takeWhile Char.isDigit
  match l.dropWhile Char.isDigit with
  | [] => if ip = [] then none else some (digitsVal ip)
  | '.' :: fp =>
    if allDigits fp ∧ (ip ≠ [] ∨ fp ≠ []) then
      some ((digitsVal ip : ℚ) + (digitsVal fp : ℚ) / (10 : ℚ) ^ fp.length)
    else none
  | _ => none

/-- Model of Rust `f64::round` (half away from zero). -/
def rustRound (q : ℚ) : ℤ :=
  if 0 ≤ q then ⌊q + 1 / 2⌋ else -⌊-q + 1 / 2⌋

/-- Model of Rust `f32`: exact rational value for finite floats, plus the
IEEE special values.  Comparison semantics below follow IEEE-754 (every
comparison involving NaN is false). -/
inductive F32 where
  | finite (q : ℚ)
  | nan
  | inf
  | negInf
deriving DecidableEq, Repr

/-- IEEE `>` on modeled `f32` values. -/
def F32.gt : F32 → F32 → Bool
  | .nan, _ => false
  | _, .nan => false
  | .finite x, .finite y => y < x
  | .inf, .inf => false
  | .inf, _ => true
  | _, .inf => false
  | .negInf, _ => false
  | _, .negInf => true

/-- IEEE `<` on modeled `f32` values. -/
def F32.lt (a b : F32) : Bool := F32.gt b a

/-- Decimal rendering of a rational whose denominator divides a power of ten
(true of every finite `f32`), modeling Rust float `Display` closely enough
for the writers (an integral value prints with no decimal point, as Rust
prints `5.0f32` as `5`). -/
def qStr (q : ℚ) : Str :=
  let n := q.num.natAbs
  let render : Str :=
    match (List.range 65).find? (fun k => (10 : ℕ) ^ k % q.den = 0) with
    | some 0 => natDigits n
    | some (k + 1) =>
      let m := n * ((10 : ℕ) ^ (k + 1) / q.den)
      natDigits (m / 10 ^ (k + 1)) ++ '.' :: padNum (k + 1) (m % 10 ^ (k + 1))
    | none => natDigits n ++ '/' :: natDigits q.den
  if q < 0 then '-' :: render else render

/-- Model of Rust `f32` `Display`. -/
def f32Str : F32 → Str
  | .finite q => qStr q
  | .nan => ("NaN").data
  | .inf => ("inf").data
  | .negInf => ("-inf").data

/-- Model of Rust `f32::from_str` for an unsigned body: keywords `inf`,
`infinity`, `nan` (case-insensitive) or a decimal number with optional
exponent.  Finite results take their exact rational value. -/
def parseF32Body (neg : Bool) (t : Str) : Option F32 :=
  if eqIgnoreCase t (("inf").data) ∨ eqIgnoreCase t (("infinity").data) then
    some (if neg then .negInf else .inf)
  else if eqIgnoreCase t (("nan").data) then some .nan
  else
    let (sig, ex) :=
      match splitOnceChar 'e' t with
      | some (s, e) => (s, some e)
      | none =>
        match splitOnceChar 'E' t with
        | some (s, e) => (s, some e)
        | none => (t, none)
    match parseDecimalQ sig with
    | none => none
    | some mant =>
      let expVal : Option ℤ :=
        match ex with
        | none => some 0
        | some ('+' :: ds) => (parseNatDigits ds).map (fun v => (v : ℤ))
        | some ('-' :: ds) => (parseNatDigits ds).map (fun v => -(v : ℤ))
        | some ds => (parseNatDigits ds).map (fun v => (v : ℤ))
      match expVal with
      | none => none
      | some e =>
        let v := mant * (10 : ℚ) ^ e
        some (.finite (if neg then -v else v))

/-- Model of Rust `f32::from_str`. -/
def parseF32 (l : Str) : Option F32 :=
  match l with
  | '+' :: t => parseF32Body false t
  | '-' :: t => parseF32Body true t
  | _ => parseF32Body false l

/-- Validate an angle is in the range 0..360 (`record.rs::validate_angle`).
The comparisons are IEEE comparisons on `f32`. -/
def validate_angle (val : F32) : Except Str F32 :=
  if F32.gt val (.finite 360) then
    .error (("Angle ").data ++ f32Str val ++ (" too large").data)
  else if F32.lt val (.finite 0) then
    .error (("Angle ").data ++ f32Str val ++ (" is negative").data)
  else .ok val

/-- Airspace class (`classes.rs::Class`). -/
inductive Class where
  | A | B | C | D | E | F | G
  | Ctr
  | Restricted
  | Danger
  | Prohibited
  | GliderProhibited
  | WaveWindow
  | RadioMandatoryZone
  | TransponderMandatoryZone
  | Unclassified
deriving DecidableEq, Repr

/-- `Class::parse`. -/
def Class.parse (data : Str) : Except Str Class :=
  if data = ("A").data then .ok .A
  else if data = ("B").data then .ok .B
  else if data = ("C").data then .ok .C
  else if data = ("D").data then .ok .D
  else if data = ("E").data then .ok .E
  else if data = ("F").data then .ok .F
  else if data = ("G").data then .ok .G
  else if data = ("CTR").data then .ok .Ctr
  else if data = ("R").data then .ok .Restricted
  else if data = ("Q").data then .ok .Danger
  else if data = ("P").data then .ok .Prohibited
  else if data = ("GP").data then .ok .GliderProhibited
  else if data = ("W").data then .ok .WaveWindow
  else if data = ("RMZ").data then .ok .RadioMandatoryZone
  else if data = ("TMZ").data then .ok .TransponderMandatoryZone
  else if data = ("UNC").data then .ok .Unclassified
  else .error (("Invalid class: ").data ++ data)

/-- `Class::to_str`. -/
def Class.to_str : Class → Str
  | .A => ("A").data
  | .B => ("B").data
  | .C => ("C").data
  | .D => ("D").data
  | .E => ("E").data
  | .F => ("F").data
  | .G => ("G").data
  | .Ctr => ("CTR").data
  | .Restricted => ("R").data
  | .Danger => ("Q").data
  | .Prohibited => ("P").data
  | .GliderProhibited => ("GP").data
  | .WaveWindow => ("W").data
  | .RadioMandatoryZone => ("RMZ").data
  | .TransponderMandatoryZone => ("TMZ").data
  | .Unclassified => ("UNC").data

/-- Arc direction (`geometry.rs::Direction`); `Cw` is the `Default`. -/
inductive Direction where
  | Cw
  | Ccw
deriving DecidableEq, Repr

/-- `Direction::parse`. -/
def Direction.parse (data : Str) : Except Str Direction :=
  if data = ("+").data then .ok .Cw
  else if data = ("-").data then .ok .Ccw
  else .error (("Invalid direction: ").data ++ data)

/-- Altitude (`altitude.rs::Altitude`); feet counts are `i32`, flight levels
`u16` in the source, so the parsers below enforce those bounds. -/
inductive Altitude where
  | Gnd
  | FeetAmsl (n : ℤ)
  | FeetAgl (n : ℤ)
  | FlightLevel (n : ℕ)
  | Unlimited
  | Other (s : Str)
deriving DecidableEq, Repr

/-- `Altitude::write`. -/
def Altitude.write : Altitude → Str
  | .Gnd => ("GND").data
  | .FeetAmsl n => intStr n ++ ("ft AMSL").data
  | .FeetAgl n => intStr n ++ ("ft AGL").data
  | .FlightLevel n => ("FL").data ++ natDigits n
  | .Unlimited => ("UNLIM").data
  | .Other s => s

/-- `altitude.rs::strip_prefix_ci` (ASCII model: the `is_char_boundary`
test becomes a length test). -/
def stripPrefixCi (s pre : Str) : Option Str :=
  if pre.length ≤ s.length ∧ eqIgnoreCase (s.take pre.length) pre then
    some (s.drop pre.length)
  else none

/-- `altitude.rs::is_amsl_suffix`. -/
def is_amsl_suffix (s : Str) : Bool :=
  s = [] || eqIgnoreCase s (("amsl").data) || eqIgnoreCase s (("msl").data)

/-- `altitude.rs::is_agl_suffix`. -/
def is_agl_suffix (s : Str) : Bool :=
  eqIgnoreCase s (("agl").data) || eqIgnoreCase s (("gnd").data) ||
    eqIgnoreCase s (("sfc").data)

/-- `Altitude::m2ft`: the `f64` arithmetic `(val / 0.3048).round()` is
modeled as exact rational division by 3048/10000 with half-away rounding. -/
def m2ft (val : ℤ) : Except Str ℤ :=
  if val > 654553015 then .error (("m2ft out of bounds (too large)").data)
  else if val < -654553016 then .error (("m2ft out of bounds (too small)").data)
  else .ok (rustRound ((val : ℚ) * 10000 / 3048))

/-- `Altitude::parse`. -/
def Altitude.parse (data : Str) : Except Str Altitude :=
  if eqIgnoreCase data (("gnd").data) || eqIgnoreCase data (("sfc").data) ||
      data = ("0").data then
    .ok .Gnd
  else if eqIgnoreCase data (("unl").data) || eqIgnoreCase data (("unlim").data) ||
      eqIgnoreCase data (("unltd").data) ||
      eqIgnoreCase data (("unlimited").data) then
    .ok .Unlimited
  else
    match stripPrefixCi data (("fl").data) with
    | some after_fl =>
      match parseU16 (trim after_fl) with
      | some v => .ok (.FlightLevel v)
      | none => .ok (.Other data)
    | none =>
      let pos := (findIdxP (fun c => !c.isDigit) data).getD data.length
      let number := data.take pos
      let rest := data.drop pos
      match parseI32 number with
      | none => .ok (.Other data)
      | some val =>
        let rest := trim rest
        if is_amsl_suffix rest then .ok (.FeetAmsl val)
        else if is_agl_suffix rest then .ok (.FeetAgl val)
        else
          let space_pos := (findIdxP isWs rest).getD rest.length
          let unit := rest.take space_pos
          let reference := trim (rest.drop space_pos)
          let finishWith : ℤ → Except Str Altitude := fun v =>
            if is_amsl_suffix reference then .ok (.FeetAmsl v)
            else if is_agl_suffix reference then .ok (.FeetAgl v)
            else .ok (.Other data)
          if eqIgnoreCase unit (("m").data) then
            match m2ft val with
            | .error e => .error e
            | .ok v2 => finishWith v2
          else if !eqIgnoreCase unit (("ft").data) then .ok (.Other data)
          else finishWith val

/-- Coordinate pair (`coords.rs::Coord`); `f64` degrees are modeled as exact
rationals. -/
structure Coord where
  lat : ℚ
  lng : ℚ
deriving DecidableEq, Repr

/-- `coords.rs::parse_coord_component`: degrees, colon, minutes, then either
a decimal fraction of minutes (DDM) or colon and seconds (DMS).  Returns the
decimal-degree value and the unconsumed remainder. -/
def parse_coord_component (input : Str) (is_lat : Bool) : Option (ℚ × Str) :=
  match findIdxP (fun c => !c.isDigit) input with
  | none => none
  | some pos =>
    let maxDigits := if is_lat then 2 else 3
    if pos > maxDigits then none
    else
      match parseU8 (input.take pos) with
      | none => none
      | some degrees =>
        if (is_lat ∧ degrees > 90) ∨ (¬is_lat ∧ degrees > 180) then none
        else
          match input.drop pos with
          | ':' :: rest =>
            match findIdxP (fun c => !c.isDigit) rest with
            | none => none
            | some mpos =>
              if mpos > 2 then none
              else
                match parseU8 (rest.take mpos) with
                | none => none
                | some minutes =>
                  let rest2 := rest.drop mpos
                  if rest2.head? = some '.' then
                    let fpos :=
                      (findIdxP (fun c => !c.isDigit && c != '.') rest2).getD
                        rest2.length
                    match parseDecimalQ (rest2.take fpos) with
                    | none => none
                    | some frac =>
                      some ((degrees : ℚ) + ((minutes : ℚ) + frac) / 60,
                        rest2.drop fpos)
                  else
                    match rest2 with
                    | ':' :: rest3 =>
                      let intPos :=
                        (findIdxP (fun c => !c.isDigit) rest3).getD rest3.length
                      if intPos > 2 then none
                      else
                        let spos :=
                          (findIdxP (fun c => !c.isDigit && c != '.') rest3).getD
                            rest3.length
                        match parseDecimalQ (rest3.take spos) with
                        | none => none
                        | some seconds =>
                          some ((degrees : ℚ) + (minutes : ℚ) / 60 +
                            seconds / 3600, rest3.drop spos)
                    | _ => none
          | _ => none

/-- `coords.rs::parse_direction`. -/
def parse_direction (input : Str) (is_lat : Bool) : Option (Bool × Str) :=
  match trimL input with
  | [] => none
  | ch :: rest =>
    if is_lat then
      if ch = 'N' ∨ ch = 'n' then some (false, rest)
      else if ch = 'S' ∨ ch = 's' then some (true, rest)
      else none
    else
      if ch = 'E' ∨ ch = 'e' then some (false, rest)
      else if ch = 'W' ∨ ch = 'w' then some (true, rest)
      else none

/-- Model of Rust `str::strip_prefix(',').unwrap_or(s)`. -/
def stripComma : Str → Str
  | ',' :: t => t
  | l => l

/-- `Coord::parse`. -/
def Coord.parse (data : Str) : Except Str Coord :=
  let input := trim data
  let errS : Str :=
    ("Invalid coord: \"").data ++ data ++ ("\"").data
  match parse_coord_component input true with
  | none => .error errS
  | some (lat0, rest) =>
    match parse_direction rest true with
    | none => .error errS
    | some (latNeg, rest1) =>
      let lat := if latNeg then -lat0 else lat0
      let r2 := trimL (stripComma (trimL rest1))
      match parse_coord_component r2 false with
      | none => .error errS
      | some (lng0, rest2) =>
        match parse_direction rest2 false with
        | none => .error errS
        | some (lngNeg, _) =>
          .ok { lat := lat, lng := if lngNeg then -lng0 else lng0 }

/-- `Coord::write`: total arc-seconds rounded half-away-from-zero, then
degree/minute/second decomposition and fixed-width rendering.  The `f64`
truncations of the source coincide with integer division/remainder on the
(nonnegative integer) total. -/
def Coord.write (c : Coord) : Str :=
  let tlat := (rustRound (|c.lat| * 3600)).toNat
  let latDeg := tlat / 3600
  let latMin := tlat % 3600 / 60
  let latSec := tlat % 60
  let latDir := if 0 ≤ c.lat then 'N' else 'S'
  let tlng := (rustRound (|c.lng| * 3600)).toNat
  let lngDeg := tlng / 3600
  let lngMin := tlng % 3600 / 60
  let lngSec := tlng % 60
  let lngDir := if 0 ≤ c.lng then 'E' else 'W'
  padNum 2 latDeg ++ ':' :: padNum 2 latMin ++ ':' :: padNum 2 latSec ++
    ' ' :: latDir :: ' ' ::
    (padNum 3 lngDeg ++ ':' :: padNum 2 lngMin ++ ':' :: padNum 2 lngSec ++
      [' ', lngDir])

/-- Timestamp of the external `iso8601` crate (`iso8601::DateTime` with a
`YMD` date), as it appears in `activations.rs`. -/
structure DateTime where
  year : ℕ
  month : ℕ
  day : ℕ
  hour : ℕ
  minute : ℕ
  second : ℕ
  millisecond : ℕ
  tzOffsetHours : ℤ
  tzOffsetMinutes : ℤ
deriving DecidableEq, Repr

/-- Modelled from the spec: `iso8601::datetime` is an external crate
collaborator ("each side is a full ISO-8601 date-time"); this model accepts
the calendar form `YYYY-MM-DDTHH:MM[:SS]` with timezone `Z`, `+HH:MM` or
`-HH:MM`.  No claim depends on the accepted ISO-8601 sublanguage. -/
def iso8601Datetime (s : Str) : Except Str DateTime :=
  let fail : Except Str DateTime :=
    .error (("Parser Error: ").data ++ s)
  match s with
  | y1 :: y2 :: y3 :: y4 :: '-' :: m1 :: m2 :: '-' :: d1 :: d2 :: 'T' ::
      h1 :: h2 :: ':' :: mi1 :: mi2 :: rest =>
    let digitsOk := allDigits [y1, y2, y3, y4, m1, m2, d1, d2, h1, h2, mi1, mi2]
    if !digitsOk then fail
    else
      let base : DateTime :=
        { year := digitsVal [y1, y2, y3, y4]
          month := digitsVal [m1, m2]
          day := digitsVal [d1, d2]
          hour := digitsVal [h1, h2]
          minute := digitsVal [mi1, mi2]
          second := 0, millisecond := 0
          tzOffsetHours := 0, tzOffsetMinutes := 0 }
      let withTz : DateTime → Str → Except Str DateTime := fun dt tz =>
        match tz with
        | ['Z'] => .ok dt
        | '+' :: o1 :: o2 :: ':' :: o3 :: [o4] =>
          if allDigits [o1, o2, o3, o4] then
            .ok { dt with tzOffsetHours := digitsVal [o1, o2],
                          tzOffsetMinutes := digitsVal [o3, o4] }
          else fail
        | '-' :: o1 :: o2 :: ':' :: o3 :: [o4] =>
          if allDigits [o1, o2, o3, o4] then
            .ok { dt with tzOffsetHours := -(digitsVal [o1, o2] : ℤ),
                          tzOffsetMinutes := -(digitsVal [o3, o4] : ℤ) }
          else fail
        | _ => fail
      match rest with
      | ':' :: s1 :: s2 :: tz =>
        if allDigits [s1, s2] then
          withTz { base with second := digitsVal [s1, s2] } tz
        else fail
      | tz => withTz base tz
  | _ => fail

/-- Airspace activation times (`activations.rs::ActivationTimes`);
the Rust fields are `start`/`end` (`end` is reserved in Lean). -/
structure ActivationTimes where
  start_ : Option DateTime
  end_ : Option DateTime
deriving DecidableEq, Repr

/-- `ActivationTimes::from_str`. -/
def ActivationTimes.parse (data : Str) : Except Str ActivationTimes :=
  if eqIgnoreCase data (("NONE").data) then .ok ⟨none, none⟩
  else
    match splitOnceChar '/' data with
    | none => .error (("Invalid activation times record: ").data ++ data)
    | some (s, e) =>
      let sideVal : Str → Except Str (Option DateTime) := fun side =>
        if eqIgnoreCase side (("NONE").data) then .ok none
        else (iso8601Datetime side).map some
      match sideVal s with
      | .error err => .error err
      | .ok sv =>
        match sideVal e with
        | .error err => .error err
        | .ok ev => .ok ⟨sv, ev⟩

/-- Modelled from the spec: `ActivationTimes::write` is invoked by
`Record::write` but its definition is not among the provided sources; the
writer tests show the format `YYYY-MM-DDTHH:MM:SS.m+HH:MM` with `NONE` for
an absent bound and `/` between the bounds. -/
def DateTime.write (d : DateTime) : Str :=
  let tzh := if d.tzOffsetHours < 0 then
      '-' :: padNum 2 d.tzOffsetHours.natAbs
    else '+' :: padNum 2 d.tzOffsetHours.natAbs
  padNum 4 d.year ++ '-' :: padNum 2 d.month ++ '-' :: padNum 2 d.day ++
    'T' :: padNum 2 d.hour ++ ':' :: padNum 2 d.minute ++
    ':' :: padNum 2 d.second ++ '.' :: natDigits d.millisecond ++
    tzh ++ ':' :: padNum 2 d.tzOffsetMinutes.natAbs

/-- Modelled from the spec: see `DateTime.write`. -/
def ActivationTimes.write (t : ActivationTimes) : Str :=
  (match t.start_ with
   | none => ("NONE").data
   | some d => d.write) ++
  '/' :: (match t.end_ with
   | none => ("NONE").data
   | some d => d.write)

/-- Arc direction record payload (`geometry.rs::ArcSegment`). -/
structure ArcSegment where
  centerpoint : Coord
  radius : F32
  angle_start : F32
  angle_end : F32
  direction : Direction
deriving DecidableEq, Repr

/-- Arc through start/end coordinates (`geometry.rs::Arc`);
the Rust fields are `start`/`end`. -/
structure Arc where
  centerpoint : Coord
  start_ : Coord
  end_ : Coord
  direction : Direction
deriving DecidableEq, Repr

/-- One polygon segment (`geometry.rs::PolygonSegment`). -/
inductive PolygonSegment where
  | Point (c : Coord)
  | Arc (a : OpenAir.Arc)
  | ArcSegment (s : OpenAir.ArcSegment)
deriving DecidableEq, Repr

/-- Airspace geometry (`geometry.rs::Geometry`): exclusively a polygon or a
circle. -/
inductive Geometry where
  | Polygon (segments : List PolygonSegment)
  | Circle (centerpoint : Coord) (radius : F32)
deriving DecidableEq, Repr

/-- One parsed line (`record.rs::Record`). -/
inductive Record where
  | AirspaceClass (c : Class)
  | AirspaceName (s : Str)
  | LowerBound (a : Altitude)
  | UpperBound (a : Altitude)
  | AirspaceType (s : Str)
  | Frequency (s : Str)
  | CallSign (s : Str)
  | TransponderCode (n : ℕ)
  | ActivationTimes (t : OpenAir.ActivationTimes)
  | UnknownExtension (s : Str)
  | VarX (c : Coord)
  | VarD (d : Direction)
  | Point (c : Coord)
  | CircleRadius (r : F32)
  | ArcSegmentData (radius angle_start angle_end : F32)
  | ArcData (start_ end_ : Coord)
  | Empty
  | Comment
  | LabelPlacement
  | Pen
  | Brush
deriving DecidableEq, Repr

/-- `Record::parse`: trim, classify by the first two non-whitespace
characters, decode the payload after the first space. -/
def Record.parse (line : Str) : Except Str Record :=
  let trimmed := trim line
  if trimmed = [] then .ok .Empty
  else
    match trimmed.filter (fun c => !isWs c) with
    | [] => .error (("Line too short").data)
    | t1 :: crest =>
      let t2 := crest.head?.getD ' '
      let data := trim (((splitOnceChar ' ' trimmed).map Prod.snd).getD [])
      if t1 = '*' then .ok .Comment
      else if t1 = 'A' ∧ t2 = 'C' then (Class.parse data).map .AirspaceClass
      else if t1 = 'A' ∧ t2 = 'N' then .ok (.AirspaceName data)
      else if t1 = 'A' ∧ t2 = 'L' then (Altitude.parse data).map .LowerBound
      else if t1 = 'A' ∧ t2 = 'H' then (Altitude.parse data).map .UpperBound
      else if t1 = 'A' ∧ t2 = 'T' then .ok .LabelPlacement
      else if t1 = 'A' ∧ t2 = 'Y' then .ok (.AirspaceType data)
      else if t1 = 'A' ∧ t2 = 'F' then .ok (.Frequency data)
      else if t1 = 'A' ∧ t2 = 'G' then .ok (.CallSign data)
      else if t1 = 'A' ∧ t2 = 'X' then
        match parseU16 data with
        | some v => .ok (.TransponderCode v)
        | none => .error (("Invalid transponder code: ").data ++ data)
      else if t1 = 'A' ∧ t2 = 'A' then
        (ActivationTimes.parse data).map .ActivationTimes
      else if t1 = 'A' then .ok (.UnknownExtension trimmed)
      else if t1 = 'S' ∧ t2 = 'P' then .ok .Pen
      else if t1 = 'S' ∧ t2 = 'B' then .ok .Brush
      else if t1 = 'V' ∧ t2 = 'X' then (Coord.parse (data.drop 2)).map .VarX
      else if t1 = 'V' ∧ t2 = 'D' then
        (Direction.parse (data.drop 2)).map .VarD
      else if t1 = 'D' ∧ t2 = 'P' then (Coord.parse data).map .Point
      else if t1 = 'D' ∧ t2 = 'C' then
        match parseF32 data with
        | some r => .ok (.CircleRadius r)
        | none => .error (("Invalid radius: ").data ++ data)
      else if t1 = 'D' ∧ t2 = 'A' then
        match (splitChar ',' data).mapM (fun p => parseF32 (trim p)) with
        | none => .error (("Invalid arc segment data: ").data ++ data)
        | some parts =>
          match parts with
          | [radius, a1, a2] =>
            match validate_angle a1 with
            | .error e => .error e
            | .ok angle_start =>
              match validate_angle a2 with
              | .error e => .error e
              | .ok angle_end => .ok (.ArcSegmentData radius angle_start angle_end)
          | _ => .error (("Invalid arc segment data: ").data ++ data)
      else if t1 = 'D' ∧ t2 = 'B' then
        match (splitChar ',' data).mapM (fun p => (Coord.parse (trim p)).toOption) with
        | none => .error (("Invalid arc data: ").data ++ data)
        | some parts =>
          match parts with
          | [s, e] => .ok (.ArcData s e)
          | _ => .error (("Invalid arc data: ").data ++ data)
      else
        .error (("Parse error (unexpected \"").data ++ t1 :: t2 :: ("\")").data)

/-- A complete airspace (`lib.rs::Airspace`); the Rust field `class` is
reserved in Lean and becomes `cls`. -/
structure Airspace where
  name : Str
  cls : Class
  type_ : Option Str
  lower_bound : Altitude
  upper_bound : Altitude
  geom : Geometry
  frequency : Option Str
  call_sign : Option Str
  transponder_code : Option ℕ
  activation_times : Option ActivationTimes
deriving DecidableEq, Repr

/-- The accumulator of `OpenAirIterator::next_airspace`: the local `Option`
variables holding the airspace under assembly plus the two carry-over
variables. -/
structure Acc where
  name : Option Str
  cls : Option Class
  lower_bound : Option Altitude
  upper_bound : Option Altitude
  geom : Option Geometry
  type_ : Option Str
  frequency : Option Str
  call_sign : Option Str
  transponder_code : Option ℕ
  activation_times : Option ActivationTimes
  var_x : Option Coord
  var_d : Option Direction
deriving DecidableEq, Repr

/-- The fresh accumulator at the start of each `next_airspace` call. -/
def Acc.init : Acc :=
  ⟨none, none, none, none, none, none, none, none, none, none, none, none⟩

/-- The finish step of `next_airspace` (`lib.rs` lines 240-260 / 272-298):
requires name, lower bound, upper bound and geometry; `class` is the guard
under which finishing is attempted at all. -/
def finish (acc : Acc) (cls : Class) : Except Str Airspace :=
  match acc.name with
  | none => .error (("Missing name").data)
  | some name =>
    match acc.lower_bound with
    | none => .error (("Missing lower bound for '").data ++ name ++ ("'").data)
    | some lb =>
      match acc.upper_bound with
      | none => .error (("Missing upper bound for '").data ++ name ++ ("'").data)
      | some ub =>
        match acc.geom with
        | none => .error (("Missing geom for '").data ++ name ++ ("'").data)
        | some g =>
          .ok ⟨name, cls, acc.type_, lb, ub, g, acc.frequency, acc.call_sign,
            acc.transponder_code, acc.activation_times⟩

/-- The record-processing match of `next_airspace` (`lib.rs` lines 301-447):
once-only fields fail on a second set; variables overwrite freely; geometry
records enforce the polygon/circle exclusivity and centerpoint scoping. -/
def consume (acc : Acc) (r : Record) : Except Str Acc :=
  match r with
  | .Empty => .ok acc
  | .Comment => .ok acc
  | .LabelPlacement => .ok acc
  | .Pen => .ok acc
  | .Brush => .ok acc
  | .UnknownExtension _ => .ok acc
  | .AirspaceClass c =>
    if acc.cls.isSome then
      .error (("Could not set class (already defined)").data)
    else .ok { acc with cls := some c }
  | .AirspaceName s =>
    if acc.name.isSome then
      .error (("Could not set name (already defined)").data)
    else .ok { acc with name := some s }
  | .LowerBound a =>
    if acc.lower_bound.isSome then
      .error (("Could not set lower_bound (already defined)").data)
    else .ok { acc with lower_bound := some a }
  | .UpperBound a =>
    if acc.upper_bound.isSome then
      .error (("Could not set upper_bound (already defined)").data)
    else .ok { acc with upper_bound := some a }
  | .AirspaceType s =>
    if acc.type_.isSome then
      .error (("Could not set type (already defined)").data)
    else .ok { acc with type_ := some s }
  | .Frequency s =>
    if acc.frequency.isSome then
      .error (("Could not set frequency (already defined)").data)
    else .ok { acc with frequency := some s }
  | .CallSign s =>
    if acc.call_sign.isSome then
      .error (("Could not set call_sign (already defined)").data)
    else .ok { acc with call_sign := some s }
  | .TransponderCode n =>
    if acc.transponder_code.isSome then
      .error (("Could not set transponder_code (already defined)").data)
    else .ok { acc with transponder_code := some n }
  | .ActivationTimes t =>
    if acc.activation_times.isSome then
      .error (("Could not set activation_times (already defined)").data)
    else .ok { acc with activation_times := some t }
  | .VarX c => .ok { acc with var_x := some c }
  | .VarD d => .ok { acc with var_d := some d }
  | .Point c =>
    match acc.geom with
    | none => .ok { acc with geom := some (.Polygon [.Point c]) }
    | some (.Polygon segs) =>
      .ok { acc with geom := some (.Polygon (segs ++ [.Point c])) }
    | some (.Circle _ _) =>
      .error (("Cannot add a point to a circle").data)
  | .CircleRadius r =>
    match acc.geom, acc.var_x with
    | none, some cp => .ok { acc with geom := some (.Circle cp r) }
    | some _, _ => .error (("Geometry already set").data)
    | none, none => .error (("Centerpoint missing").data)
  | .ArcSegmentData radius a1 a2 =>
    match acc.var_x with
    | none => .error (("Centerpoint missing").data)
    | some cp =>
      let dir := acc.var_d.getD .Cw
      let seg := PolygonSegment.ArcSegment ⟨cp, radius, a1, a2, dir⟩
      match acc.geom with
      | none => .ok { acc with geom := some (.Polygon [seg]) }
      | some (.Polygon segs) =>
        .ok { acc with geom := some (.Polygon (segs ++ [seg])) }
      | some (.Circle _ _) =>
        .error (("Cannot add a point to a circle").data)
  | .ArcData s e =>
    match acc.var_x with
    | none => .error (("Centerpoint missing").data)
    | some cp =>
      let dir := acc.var_d.getD .Cw
      let seg := PolygonSegment.Arc ⟨cp, s, e, dir⟩
      match acc.geom with
      | none => .ok { acc with geom := some (.Polygon [seg]) }
      | some (.Polygon segs) =>
        .ok { acc with geom := some (.Polygon (segs ++ [seg])) }
      | some (.Circle _ _) =>
        .error (("Cannot add a point to a circle").data)

/-- BOM stripping applied to each processed line
(`trim_start_matches('\u{feff}')` in `next_airspace`). -/
def stripBom (l : Str) : Str := l.dropWhile (fun c => c = Char.ofNat 0xFEFF)

/-- One call of `OpenAirIterator::next_airspace` on the remaining input
lines: consume records until a class declaration arrives with accumulation
already in progress (yield, leaving that line unconsumed) or until end of
input (yield only if the class field is set). -/
def nextAirspace (acc : Acc) : List Str → Except Str (Option Airspace × List Str)
  | [] =>
    match acc.cls with
    | some c =>
      match finish acc c with
      | .ok a => .ok (some a, [])
      | .error e => .error e
    | none => .ok (none, [])
  | l :: rest =>
    match Record.parse (stripBom l) with
    | .error e => .error e
    | .ok r =>
      match r, acc.cls with
      | .AirspaceClass _, some c =>
        (match finish acc c with
         | .ok a => .ok (some a, l :: rest)
         | .error e => .error e)
      | _, _ =>
        match consume acc r with
        | .error e => .error e
        | .ok acc2 => nextAirspace acc2 rest

/-- Accumulation of a list of lines into the local variables, without the
driver's boundary interception; used to phrase hypotheses about airspace
bodies. -/
def accumLines (acc : Acc) : List Str → Except Str Acc
  | [] => .ok acc
  | l :: rest =>
    match Record.parse (stripBom l) with
    | .error e => .error e
    | .ok r =>
      match consume acc r with
      | .error e => .error e
      | .ok a2 => accumLines a2 rest

/-- Repeated `next_airspace` calls (the `Iterator` impl), collecting every
yielded airspace; the fuel bounds the number of yields and
`lines.length + 1` always suffices because every yield consumes at least
one line. -/
def parseAllAux : ℕ → List Str → Except Str (List Airspace)
  | 0, _ => .error (("Iterator fuel exhausted").data)
  | fuel + 1, lines =>
    match nextAirspace Acc.init lines with
    | .error e => .error e
    | .ok (none, _) => .ok []
    | .ok (some a, rest) =>
      match parseAllAux fuel rest with
      | .error e => .error e
      | .ok tail => .ok (a :: tail)

/-- `lib.rs::parse`, collected into a list. -/
def parseAll (lines : List Str) : Except Str (List Airspace) :=
  parseAllAux (lines.length + 1) lines

/-- The two-byte line terminator. -/
def crlf : Str := ("\r\n").data

/-- `Record::write`, as the emitted string. -/
def Record.writeStr : Record → Str
  | .AirspaceClass c => ("AC ").data ++ c.to_str ++ crlf
  | .AirspaceType t => ("AY ").data ++ t ++ crlf
  | .AirspaceName n => ("AN ").data ++ n ++ crlf
  | .LowerBound a => ("AL ").data ++ a.write ++ crlf
  | .UpperBound a => ("AH ").data ++ a.write ++ crlf
  | .Frequency f => ("AF ").data ++ f ++ crlf
  | .CallSign s => ("AG ").data ++ s ++ crlf
  | .TransponderCode n => ("AX ").data ++ natDigits n ++ crlf
  | .ActivationTimes t => ("AA ").data ++ t.write ++ crlf
  | .UnknownExtension e => e ++ crlf
  | .VarX c => ("V X=").data ++ c.write ++ crlf
  | .VarD d =>
    ("V D=").data ++
      (match d with
       | .Cw => ("+").data
       | .Ccw => ("-").data) ++ crlf
  | .Point c => ("DP ").data ++ c.write ++ crlf
  | .CircleRadius r => ("DC ").data ++ f32Str r ++ crlf
  | .ArcSegmentData r a1 a2 =>
    ("DA ").data ++ f32Str r ++ (", ").data ++ f32Str a1 ++ (", ").data ++
      f32Str a2 ++ crlf
  | .ArcData s e =>
    ("DB ").data ++ s.write ++ (", ").data ++ e.write ++ crlf
  | .Empty => crlf
  | .Comment => []
  | .LabelPlacement => []
  | .Pen => []
  | .Brush => []

/-- The record sequence emitted by `Airspace::write`, in its fixed order. -/
def airspaceRecords (a : Airspace) : List Record :=
  [Record.AirspaceClass a.cls] ++
  (match a.type_ with
   | some t => [Record.AirspaceType t]
   | none => []) ++
  [Record.AirspaceName a.name, Record.LowerBound a.lower_bound,
    Record.UpperBound a.upper_bound] ++
  (match a.frequency with
   | some f => [Record.Frequency f]
   | none => []) ++
  (match a.call_sign with
   | some s => [Record.CallSign s]
   | none => []) ++
  (match a.transponder_code with
   | some n => [Record.TransponderCode n]
   | none => []) ++
  (match a.activation_times with
   | some t => [Record.ActivationTimes t]
   | none => []) ++
  (match a.geom with
   | .Circle cp r => [Record.VarX cp, Record.CircleRadius r]
   | .Polygon segs =>
     (segs.map (fun s =>
       match s with
       | .Point c => [Record.Point c]
       | .ArcSegment s =>
         [Record.VarX s.centerpoint, Record.VarD s.direction,
           Record.ArcSegmentData s.radius s.angle_start s.angle_end]
       | .Arc arc =>
         [Record.VarX arc.centerpoint, Record.VarD arc.direction,
           Record.ArcData arc.start_ arc.end_])).flatten)

/-- The record lines emitted by `Airspace::write`. -/
def airspaceLines (a : Airspace) : List Str :=
  (airspaceRecords a).map Record.writeStr

/-- `Airspace::write`, as the emitted string. -/
def Airspace.writeStr (a : Airspace) : Str :=
  (airspaceLines a).flatten

/-- `lib.rs::write`: the airspaces in order, a blank line (one extra CRLF)
before each one except the first. -/
def writeAll : List Airspace → Str
  | [] => []
  | a :: rest => a.writeStr ++ (rest.map (fun b => crlf ++ b.writeStr)).flatten


/-- A line whose record parses successfully to something other than an
`AirspaceClass` record (the driver accumulates such lines without starting
a new airspace). -/
def nonClassLine (l : Str) : Bool :=
  match Record.parse (stripBom l) with
  | .ok (.AirspaceClass _) => false
  | .ok _ => true
  | .error _ => false

/-- A well-formed airspace block: an `AC` line followed by a body of
non-class lines that accumulate without error and finish to `a`. -/
def blockOk (b : Str × List Str) (a : Airspace) : Bool :=
  match Record.parse (stripBom b.1) with
  | .ok (.AirspaceClass c) =>
    (b.2.all nonClassLine) &&
    (match accumLines { Acc.init with cls := some c } b.2 with
     | .ok acc2 => decide (finish acc2 c = .ok a)
     | .error _ => false)
  | _ => false

/-- Concatenate airspace blocks (each an `AC` line plus its body) into one
line stream. -/
def joinBlocks (bs : List (Str × List Str)) : List Str :=
  (bs.map (fun b => b.1 :: b.2)).flatten

/-! ### Helper lemmas: digits and digit strings -/

theorem isDigit_digitChar {k : ℕ} (h : k < 10) :
    (Nat.digitChar k).isDigit = true := by
  interval_cases k <;> decide

theorem digitVal_digitChar {k : ℕ} (h : k < 10) :
    digitVal (Nat.digitChar k) = k := by
  interval_cases k <;> decide

theorem toNat_of_isDigit {c : Char} (h : c.isDigit = true) :
    48 ≤ c.toNat ∧ c.toNat ≤ 57 := by
  simp [Char.isDigit] at h
  exact ⟨h.1, h.2⟩

theorem char_ne_of_toNat {c d : Char} (h : c.toNat ≠ d.toNat) : c ≠ d :=
  fun he => h (by rw [he])

theorem digitVal_lt_ten {c : Char} (h : c.isDigit = true) : digitVal c < 10 := by
  have hb := toNat_of_isDigit h
  simp [digitVal]
  omega

theorem not_isWs_of_isDigit {c : Char} (h : c.isDigit = true) :
    isWs c = false := by
  have hb := toNat_of_isDigit h
  have h1 : c ≠ ' ' := char_ne_of_toNat
    (by have : (' ').toNat = 32 := by decide
        omega)
  have h2 : c ≠ '\t' := char_ne_of_toNat
    (by have : ('\t').toNat = 9 := by decide
        omega)
  have h3 : c ≠ '\r' := char_ne_of_toNat
    (by have : ('\r').toNat = 13 := by decide
        omega)
  have h4 : c ≠ '\n' := char_ne_of_toNat
    (by have : ('\n').toNat = 10 := by decide
        omega)
  simp [isWs, h1, h2, h3, h4]

theorem ne_of_isDigit_of_not {c x : Char} (h : c.isDigit = true)
    (hx : x.isDigit = false) : c ≠ x := by
  intro he; rw [he] at h; rw [h] at hx; cases hx

theorem lowerChar_of_isDigit {c : Char} (h : c.isDigit = true) :
    lowerChar c = c := by
  have hb := toNat_of_isDigit h
  unfold lowerChar
  rw [if_neg]
  rintro ⟨h1, -⟩
  have h65 : ('A').toNat ≤ c.toNat := h1
  have : ('A').toNat = 65 := by decide
  omega

theorem natDigits_eq_of_lt {n : ℕ} (h : n < 10) :
    natDigits n = [Nat.digitChar n] := by
  unfold natDigits
  rw [dif_pos h]

theorem natDigits_eq_of_ge {n : ℕ} (h : ¬ n < 10) :
    natDigits n = natDigits (n / 10) ++ [Nat.digitChar (n % 10)] := by
  conv_lhs => rw [natDigits]
  rw [dif_neg h]

theorem natDigits_ne_nil (n : ℕ) : natDigits n ≠ [] := by
  by_cases h : n < 10
  · rw [natDigits_eq_of_lt h]; simp
  · rw [natDigits_eq_of_ge h]; simp

theorem natDigits_head (n : ℕ) :
    ∃ k t, k < 10 ∧ natDigits n = Nat.digitChar k :: t := by
  induction n using Nat.strong_induction_on with
  | _ n ih =>
    by_cases h : n < 10
    · exact ⟨n, [], h, natDigits_eq_of_lt h⟩
    · obtain ⟨k, t, hk, ht⟩ := ih (n / 10) (Nat.div_lt_self (by omega) (by omega))
      exact ⟨k, t ++ [Nat.digitChar (n % 10)], hk, by
        rw [natDigits_eq_of_ge h, ht]; simp⟩

theorem natDigits_all_digits (n : ℕ) :
    ∀ c ∈ natDigits n, c.isDigit = true := by
  induction n using Nat.strong_induction_on with
  | _ n ih =>
    by_cases h : n < 10
    · rw [natDigits_eq_of_lt h]
      intro c hc
      simp at hc
      rw [hc]; exact isDigit_digitChar h
    · rw [natDigits_eq_of_ge h]
      intro c hc
      rcases List.mem_append.1 hc with hc | hc
      · exact ih (n / 10) (Nat.div_lt_self (by omega) (by omega)) c hc
      · simp at hc
        rw [hc]; exact isDigit_digitChar (Nat.mod_lt _ (by omega))

theorem digitsVal_go (l : Str) :
    ∀ a : ℕ, l.foldl (fun a c => 10 * a + digitVal c) a =
      a * 10 ^ l.length + digitsVal l := by
  induction l with
  | nil => intro a; simp [digitsVal]
  | cons c t ih =>
    intro a
    simp only [List.foldl_cons, digitsVal, List.length_cons]
    rw [ih (10 * a + digitVal c), ih (10 * 0 + digitVal c)]
    ring

theorem digitsVal_append (xs ys : Str) :
    digitsVal (xs ++ ys) = digitsVal xs * 10 ^ ys.length + digitsVal ys := by
  simp only [digitsVal, List.foldl_append]
  rw [digitsVal_go ys]
  rfl

theorem digitsVal_natDigits (n : ℕ) : digitsVal (natDigits n) = n := by
  induction n using Nat.strong_induction_on with
  | _ n ih =>
    by_cases h : n < 10
    · rw [natDigits_eq_of_lt h]
      simp [digitsVal, digitVal_digitChar h]
    · rw [natDigits_eq_of_ge h, digitsVal_append,
        ih (n / 10) (Nat.div_lt_self (by omega) (by omega))]
      simp [digitsVal, digitVal_digitChar (Nat.mod_lt n (by omega))]
      omega

theorem digitsVal_lt (l : Str) (h : ∀ c ∈ l, c.isDigit = true) :
    digitsVal l < 10 ^ l.length := by
  induction l with
  | nil => simp [digitsVal]
  | cons c t ih =>
    have hc := digitVal_lt_ten (h c (by simp))
    have ht := ih (fun x hx => h x (by simp [hx]))
    have : digitsVal (c :: t) = digitVal c * 10 ^ t.length + digitsVal t := by
      have := digitsVal_append [c] t
      simpa [digitsVal] using this
    rw [this]
    have h10 : (0 : ℕ) < 10 ^ t.length := Nat.pos_pow_of_pos _ (by omega)
    calc digitVal c * 10 ^ t.length + digitsVal t
        < digitVal c * 10 ^ t.length + 10 ^ t.length := by omega
      _ = (digitVal c + 1) * 10 ^ t.length := by ring
      _ ≤ 10 * 10 ^ t.length := Nat.mul_le_mul_right _ (by omega)
      _ = 10 ^ (c :: t).length := by rw [List.length_cons]; ring

theorem natDigits_length_le {k : ℕ} :
    ∀ {n : ℕ}, n < 10 ^ (k + 1) → (natDigits n).length ≤ k + 1 := by
  induction k with
  | zero =>
    intro n h
    rw [natDigits_eq_of_lt (by simpa using h)]
    simp
  | succ k ih =>
    intro n h
    by_cases h10 : n < 10
    · rw [natDigits_eq_of_lt h10]; simp
    · rw [natDigits_eq_of_ge h10]
      have : n / 10 < 10 ^ (k + 1) := by
        rw [Nat.div_lt_iff_lt_mul (by omega)]
        calc n < 10 ^ (k + 1 + 1) := h
          _ = 10 ^ (k + 1) * 10 := by ring
      have := ih this
      simp only [List.length_append, List.length_cons, List.length_nil]
      omega

theorem padNum_all_digits (w n : ℕ) :
    ∀ c ∈ padNum w n, c.isDigit = true := by
  intro c hc
  rcases List.mem_append.1 hc with hc | hc
  · rw [List.eq_of_mem_replicate hc]; decide
  · exact natDigits_all_digits n c hc

theorem padNum_ne_nil (w n : ℕ) : padNum w n ≠ [] := by
  simp [padNum, natDigits_ne_nil n]

theorem padNum_length {w n : ℕ} (h : (natDigits n).length ≤ w) :
    (padNum w n).length = w := by
  simp [padNum]
  omega

theorem digitsVal_replicate_zero (k : ℕ) :
    digitsVal (List.replicate k '0') = 0 := by
  induction k with
  | zero => simp [digitsVal]
  | succ k ih =>
    have : ('0' :: List.replicate k '0') = [('0' : Char)] ++ List.replicate k '0' := rfl
    rw [List.replicate_succ, this, digitsVal_append, ih]
    simp [digitsVal, digitVal]

theorem digitsVal_padNum (w n : ℕ) : digitsVal (padNum w n) = n := by
  rw [padNum, digitsVal_append, digitsVal_replicate_zero, digitsVal_natDigits]
  simp

/-! ### Helper lemmas: numeric parsing -/

theorem takeWhile_all {p : Char → Bool} {l : Str} (h : ∀ c ∈ l, p c = true) :
    l.takeWhile p = l := by
  induction l with
  | nil => rfl
  | cons c t ih =>
    rw [List.takeWhile_cons, if_pos (h c (by simp))]
    rw [ih (fun x hx => h x (by simp [hx]))]

theorem dropWhile_all {p : Char → Bool} {l : Str} (h : ∀ c ∈ l, p c = true) :
    l.dropWhile p = [] := by
  induction l with
  | nil => rfl
  | cons c t ih =>
    rw [List.dropWhile_cons, if_pos (h c (by simp))]
    exact ih (fun x hx => h x (by simp [hx]))


theorem stripPlus_of_head_ne {c : Char} (t : Str) (h : c ≠ '+') :
    stripPlus (c :: t) = c :: t := by
  unfold stripPlus
  split
  · rename_i he
    cases he
    exact absurd rfl h
  · rfl

theorem parseNatDigits_of_digits {l : Str} (h1 : l ≠ [])
    (h2 : ∀ c ∈ l, c.isDigit = true) :
    parseNatDigits l = some (digitsVal l) := by
  have : allDigits l = true := by
    simp [allDigits, List.all_eq_true]
    exact h2
  simp [parseNatDigits, h1, this]

theorem digits_head_ne_plus {l : Str} (h2 : ∀ c ∈ l, c.isDigit = true) :
    stripPlus l = l := by
  cases l with
  | nil => rfl
  | cons c t =>
    exact stripPlus_of_head_ne t
      (ne_of_isDigit_of_not (h2 c (by simp)) (by decide))

theorem parseUnsigned_of_digits {max : ℕ} {l : Str} (h1 : l ≠ [])
    (h2 : ∀ c ∈ l, c.isDigit = true) (h3 : digitsVal l ≤ max) :
    parseUnsigned max l = some (digitsVal l) := by
  rw [parseUnsigned, digits_head_ne_plus h2, parseNatDigits_of_digits h1 h2]
  simp [h3]

theorem parseU8_padNum {w n : ℕ} (h : n ≤ 255) :
    parseU8 (padNum w n) = some n := by
  have h3 : digitsVal (padNum w n) ≤ 255 := by rw [digitsVal_padNum]; exact h
  have := parseUnsigned_of_digits (padNum_ne_nil w n) (padNum_all_digits w n) h3
  rw [digitsVal_padNum] at this
  exact this

theorem parseU16_natDigits {n : ℕ} (h : n ≤ 65535) :
    parseU16 (natDigits n) = some n := by
  have h3 : digitsVal (natDigits n) ≤ 65535 := by
    rw [digitsVal_natDigits]; exact h
  have := parseUnsigned_of_digits (natDigits_ne_nil n)
    (natDigits_all_digits n) h3
  rw [digitsVal_natDigits] at this
  exact this

theorem parseI32_cons_of_ne {c : Char} (t : Str) (h1 : c ≠ '+')
    (h2 : c ≠ '-') :
    parseI32 (c :: t) = (parseNatDigits (c :: t)).bind fun v =>
      if v ≤ 2147483647 then some (v : ℤ) else none := by
  rw [parseI32.eq_def]
  split
  · rename_i he
    injection he with he1 _
    exact absurd he1 h1
  · rename_i he
    injection he with he1 _
    exact absurd he1 h2
  · rfl

theorem parseI32_natDigits {n : ℕ} (h : n ≤ 2147483647) :
    parseI32 (natDigits n) = some (n : ℤ) := by
  obtain ⟨k, t, hk, ht⟩ := natDigits_head n
  have hne1 : Nat.digitChar k ≠ '+' :=
    ne_of_isDigit_of_not (isDigit_digitChar hk) (by decide)
  have hne2 : Nat.digitChar k ≠ '-' :=
    ne_of_isDigit_of_not (isDigit_digitChar hk) (by decide)
  have hd : parseNatDigits (natDigits n) = some n := by
    rw [parseNatDigits_of_digits (natDigits_ne_nil n)
      (natDigits_all_digits n), digitsVal_natDigits]
  rw [ht, parseI32_cons_of_ne t hne1 hne2, ← ht, hd]
  simp [h]

theorem parseDecimalQ_of_digits {l : Str} (h1 : l ≠ [])
    (h2 : ∀ c ∈ l, c.isDigit = true) :
    parseDecimalQ l = some ((digitsVal l : ℚ)) := by
  rw [parseDecimalQ.eq_def]
  rw [takeWhile_all h2, dropWhile_all h2]
  simp [h1]

theorem parseNatDigits_nil : parseNatDigits [] = none := by
  simp [parseNatDigits]

/-! ### Helper lemmas: scanning and trimming -/

theorem findIdxP_cons (p : Char → Bool) (c : Char) (t : Str) :
    findIdxP p (c :: t) =
      if p c then some 0 else (findIdxP p t).map (· + 1) := rfl

theorem findIdxP_append_all_false {p : Char → Bool} {xs : Str}
    (h : ∀ c ∈ xs, p c = false) (ys : Str) :
    findIdxP p (xs ++ ys) = (findIdxP p ys).map (· + xs.length) := by
  induction xs with
  | nil => simp [Option.map_id']
  | cons c t ih =>
    have hc : p c = false := h c (by simp)
    rw [List.cons_append, findIdxP_cons, if_neg (by simp [hc]),
      ih (fun x hx => h x (by simp [hx]))]
    cases findIdxP p ys
    · simp
    · simp
      omega

theorem findIdxP_of_head_true {p : Char → Bool} {c : Char} (t : Str)
    (hc : p c = true) : findIdxP p (c :: t) = some 0 := by
  simp [findIdxP, hc]

theorem findIdxP_scan {p : Char → Bool} {xs : Str} {c : Char}
    (h : ∀ x ∈ xs, p x = false) (hc : p c = true) (ys : Str) :
    findIdxP p (xs ++ c :: ys) = some xs.length := by
  rw [findIdxP_append_all_false h, findIdxP_of_head_true _ hc]
  simp

theorem findIdxP_getD_scan {p : Char → Bool} {xs rest : Str}
    (h : ∀ x ∈ xs, p x = false)
    (hrest : ∀ c t, rest = c :: t → p c = true) :
    (findIdxP p (xs ++ rest)).getD (xs ++ rest).length = xs.length := by
  cases rest with
  | nil =>
    rw [findIdxP_append_all_false h]
    simp [findIdxP]
  | cons c t =>
    rw [findIdxP_scan h (hrest c t rfl) t]
    simp

theorem trimL_of_head {c : Char} (t : Str) (h : isWs c = false) :
    trimL (c :: t) = c :: t := by
  simp [trimL, List.dropWhile_cons, h]

theorem trimR_of_last (l : Str) {c : Char} (h : isWs c = false) :
    trimR (l ++ [c]) = l ++ [c] := by
  simp [trimR, List.dropWhile_cons, h]

theorem trim_of_all {l : Str} (h : ∀ c ∈ l, isWs c = false) : trim l = l := by
  have hL : trimL l = l := by
    cases l with
    | nil => rfl
    | cons c t => exact trimL_of_head t (h c (by simp))
  have hR : trimR l = l := by
    unfold trimR
    rw [dropWhile_eq_self_rev, List.reverse_reverse]
  · rw [trim, hL, hR]
  where
    dropWhile_eq_self_rev : l.reverse.dropWhile isWs = l.reverse := by
      cases hr : l.reverse with
      | nil => rfl
      | cons c t =>
        have hc : c ∈ l := by
          rw [← List.mem_reverse, hr]; simp
        rw [List.dropWhile_cons, if_neg (by simp [h c hc])]

theorem trim_of_head_last {c d : Char} (m : Str) (hc : isWs c = false)
    (hd : isWs d = false) : trim (c :: (m ++ [d])) = c :: (m ++ [d]) := by
  rw [trim, trimL_of_head _ hc]
  have : c :: (m ++ [d]) = (c :: m) ++ [d] := by simp
  rw [this, trimR_of_last _ hd]

theorem eqIgnoreCase_head_false {x y : Char} (xs ys : Str)
    (h : lowerChar x ≠ lowerChar y) :
    eqIgnoreCase (x :: xs) (y :: ys) = false := by
  simp [eqIgnoreCase, h]

theorem eqIgnoreCase_nil_cons (y : Char) (ys : Str) :
    eqIgnoreCase [] (y :: ys) = false := by
  simp [eqIgnoreCase]

theorem eqIgnoreCase_cons_nil (x : Char) (xs : Str) :
    eqIgnoreCase (x :: xs) [] = false := by
  simp [eqIgnoreCase]

theorem eqIgnoreCase_length_ne {a b : Str} (h : a.length ≠ b.length) :
    eqIgnoreCase a b = false := by
  simp only [eqIgnoreCase, decide_eq_false_iff_not]
  intro he
  exact h (by simpa using congrArg List.length he)

theorem toNat_ofNat_of_le {m : ℕ} (h1 : 97 ≤ m) (h2 : m ≤ 122) :
    (Char.ofNat m).toNat = m := by
  have hv : m.isValidChar := Or.inl (by omega)
  simp [Char.ofNat, hv, Char.ofNatAux, Char.toNat, UInt32.toNat,
    BitVec.toNat_ofNat]

theorem lowerChar_digit_ne {c x : Char} (h : c.isDigit = true)
    (hx : x.isDigit = false) : lowerChar c ≠ lowerChar x := by
  rw [lowerChar_of_isDigit h]
  intro he
  by_cases hxx : 'A' ≤ x ∧ x ≤ 'Z'
  · have hb := toNat_of_isDigit h
    have h90 : x.toNat ≤ ('Z').toNat := hxx.2
    have h65 : ('A').toNat ≤ x.toNat := hxx.1
    have hZ : ('Z').toNat = 90 := by decide
    have hA : ('A').toNat = 65 := by decide
    unfold lowerChar at he
    rw [if_pos hxx] at he
    have hc : c.toNat = x.toNat + 32 := by
      have := congrArg Char.toNat he
      rwa [toNat_ofNat_of_le (by omega) (by omega)] at this
    omega
  · unfold lowerChar at he
    rw [if_neg hxx] at he
    rw [he] at h
    rw [h] at hx
    cases hx

theorem findIdxP_take_false {p : Char → Bool} :
    ∀ {l : Str} {k : ℕ}, findIdxP p l = some k → ∀ c ∈ l.take k, p c = false := by
  intro l
  induction l with
  | nil => intro k h; simp [findIdxP] at h
  | cons c t ih =>
    intro k h x hx
    by_cases hc : p c = true
    · rw [findIdxP_of_head_true _ hc] at h
      cases h
      simp at hx
    · simp only [findIdxP, hc, Bool.false_eq_true, if_false] at h
      obtain ⟨k', hk', he⟩ := Option.map_eq_some'.1 h
      subst he
      rcases List.mem_cons.1 (by simpa using hx) with hx' | hx'
      · rw [hx']; simpa using hc
      · exact ih hk' x hx'

/-! ### Coordinate write/parse round trip (C5) -/

theorem nonDigit_false_of_digits {l : Str} (h : ∀ c ∈ l, c.isDigit = true) :
    ∀ c ∈ l, (!c.isDigit) = false := by
  intro c hc
  simp [h c hc]

theorem nonDigitDot_false_of_digits {l : Str} (h : ∀ c ∈ l, c.isDigit = true) :
    ∀ c ∈ l, (!c.isDigit && c != '.') = false := by
  intro c hc
  simp [h c hc]

theorem natDigits_len_le_two {n : ℕ} (h : n ≤ 99) : (natDigits n).length ≤ 2 :=
  @natDigits_length_le 1 _ (by omega)

theorem natDigits_len_le_three {n : ℕ} (h : n ≤ 999) :
    (natDigits n).length ≤ 3 :=
  @natDigits_length_le 2 _ (by omega)

theorem parse_comp_writeStr (isLat : Bool) (deg mn sec : ℕ) (rest : Str)
    (hdeg : deg ≤ if isLat then 90 else 180) (hmn : mn ≤ 59) (hsec : sec ≤ 59)
    (hrest : ∀ c t, rest = c :: t →
      (c.isDigit = false ∧ c ≠ ':' ∧ c ≠ '.')) :
    parse_coord_component
      (padNum (if isLat then 2 else 3) deg ++ ':' :: (padNum 2 mn ++ ':' ::
        (padNum 2 sec ++ rest))) isLat
      = some ((deg : ℚ) + (mn : ℚ) / 60 + (sec : ℚ) / 3600, rest) := by
  set w : ℕ := if isLat then 2 else 3 with hw
  have hdeg180 : deg ≤ 180 := by
    cases isLat <;> simp [hw] at hdeg ⊢ <;> omega
  have hlenw : (padNum w deg).length = w := by
    apply padNum_length
    cases isLat
    · simpa [hw] using natDigits_len_le_three (by omega)
    · simp only [hw, if_true]
      exact natDigits_len_le_two (by simp at hdeg; omega)
  have hlen2m : (padNum 2 mn).length = 2 :=
    padNum_length (natDigits_len_le_two (by omega))
  have hlen2s : (padNum 2 sec).length = 2 :=
    padNum_length (natDigits_len_le_two (by omega))
  -- degree scan
  have hscan1 : findIdxP (fun c => !c.isDigit)
      (padNum w deg ++ ':' :: (padNum 2 mn ++ ':' :: (padNum 2 sec ++ rest)))
      = some w := by
    rw [findIdxP_scan (nonDigit_false_of_digits (padNum_all_digits w deg))
      (by decide) _, hlenw]
  -- take/drop around the degree field
  have htake1 : List.take w
      (padNum w deg ++ ':' :: (padNum 2 mn ++ ':' :: (padNum 2 sec ++ rest)))
      = padNum w deg := List.take_left' hlenw
  have hdrop1 : List.drop w
      (padNum w deg ++ ':' :: (padNum 2 mn ++ ':' :: (padNum 2 sec ++ rest)))
      = ':' :: (padNum 2 mn ++ ':' :: (padNum 2 sec ++ rest)) :=
    List.drop_left' hlenw
  have hu8deg : parseU8 (padNum w deg) = some deg :=
    parseU8_padNum (by omega)
  have hcheck : ¬(isLat = true ∧ deg > 90 ∨ ¬isLat = true ∧ deg > 180) := by
    cases isLat <;> simp [hw] at hdeg ⊢ <;> omega
  -- minutes scan
  have hscan2 : findIdxP (fun c => !c.isDigit)
      (padNum 2 mn ++ ':' :: (padNum 2 sec ++ rest)) = some 2 := by
    rw [findIdxP_scan (nonDigit_false_of_digits (padNum_all_digits 2 mn))
      (by decide) _, hlen2m]
  have htake2 : List.take 2 (padNum 2 mn ++ ':' :: (padNum 2 sec ++ rest))
      = padNum 2 mn := List.take_left' hlen2m
  have hdrop2 : List.drop 2 (padNum 2 mn ++ ':' :: (padNum 2 sec ++ rest))
      = ':' :: (padNum 2 sec ++ rest) := List.drop_left' hlen2m
  have hu8mn : parseU8 (padNum 2 mn) = some mn :=
    parseU8_padNum (by omega)
  have hhead : ¬((':' :: (padNum 2 sec ++ rest)).head? = some '.') := by
    simp
  -- seconds scans
  have hrest_nd : ∀ c t, rest = c :: t → (fun c => !c.isDigit) c = true := by
    intro c t hct
    simp [(hrest c t hct).1]
  have hrest_nds : ∀ c t, rest = c :: t →
      (fun c => !c.isDigit && c != '.') c = true := by
    intro c t hct
    obtain ⟨h1, _, h3⟩ := hrest c t hct
    simp [h1, h3]
  have hintpos : (findIdxP (fun c => !c.isDigit)
      (padNum 2 sec ++ rest)).getD (padNum 2 sec ++ rest).length = 2 := by
    rw [findIdxP_getD_scan (nonDigit_false_of_digits (padNum_all_digits 2 sec))
      hrest_nd, hlen2s]
  have hspos : (findIdxP (fun c => !c.isDigit && c != '.')
      (padNum 2 sec ++ rest)).getD (padNum 2 sec ++ rest).length = 2 := by
    rw [findIdxP_getD_scan (nonDigitDot_false_of_digits
      (padNum_all_digits 2 sec)) hrest_nds, hlen2s]
  have htake3 : List.take 2 (padNum 2 sec ++ rest) = padNum 2 sec :=
    List.take_left' hlen2s
  have hdrop3 : List.drop 2 (padNum 2 sec ++ rest) = rest :=
    List.drop_left' hlen2s
  have hdec : parseDecimalQ (padNum 2 sec) = some ((sec : ℚ)) := by
    rw [parseDecimalQ_of_digits (padNum_ne_nil 2 sec)
      (padNum_all_digits 2 sec), digitsVal_padNum]
  unfold parse_coord_component
  rw [hscan1]
  simp only [← hw, Option.getD_some, gt_iff_lt, Nat.lt_irrefl, if_false,
    htake1, hdrop1, hu8deg, hcheck, hscan2, htake2, hdrop2, hu8mn, hhead,
    hintpos, hspos, htake3, hdrop3, hdec]

theorem rustRound_natCast (n : ℕ) : rustRound ((n : ℚ)) = (n : ℤ) := by
  unfold rustRound
  rw [if_pos (by positivity)]
  rw [Int.floor_eq_iff]
  constructor
  · push_cast; linarith
  · push_cast; linarith

theorem abs_div_mul (a : ℤ) : |(a : ℚ) / 3600| * 3600 = ((a.natAbs : ℕ) : ℚ) := by
  rw [abs_div, abs_of_pos (by norm_num : (0:ℚ) < 3600)]
  rw [div_mul_cancel₀ _ (by norm_num : (3600:ℚ) ≠ 0)]
  rw [Int.cast_natAbs]
  simp [Int.cast_abs]

theorem dms_arith (n : ℕ) :
    ((n / 3600 : ℕ) : ℚ) + ((n % 3600 / 60 : ℕ) : ℚ) / 60 +
      ((n % 60 : ℕ) : ℚ) / 3600 = (n : ℚ) / 3600 := by
  have h : 3600 * (n / 3600) + 60 * (n % 3600 / 60) + n % 60 = n := by omega
  have h' : ((3600 * (n / 3600) + 60 * (n % 3600 / 60) + n % 60 : ℕ) : ℚ)
      = (n : ℚ) := by rw [h]
  push_cast at h'
  field_simp
  linarith

theorem coord_write_explicit (a b : ℤ) :
    Coord.write ⟨(a : ℚ) / 3600, (b : ℚ) / 3600⟩ =
      padNum 2 (a.natAbs / 3600) ++ ':' :: (padNum 2 (a.natAbs % 3600 / 60) ++
        ':' :: (padNum 2 (a.natAbs % 60) ++
        (' ' :: (if 0 ≤ a then 'N' else 'S') :: ' ' ::
        (padNum 3 (b.natAbs / 3600) ++ ':' :: (padNum 2 (b.natAbs % 3600 / 60)
          ++ ':' :: (padNum 2 (b.natAbs % 60) ++
          [' ', if 0 ≤ b then 'E' else 'W'])))))) := by
  unfold Coord.write
  have ha1 : rustRound (|(a : ℚ) / 3600| * 3600) = (a.natAbs : ℤ) := by
    rw [abs_div_mul, rustRound_natCast]
  have hb1 : rustRound (|(b : ℚ) / 3600| * 3600) = (b.natAbs : ℤ) := by
    rw [abs_div_mul, rustRound_natCast]
  have hda : (0 ≤ (a : ℚ) / 3600) = (0 ≤ a) := by
    simp only [eq_iff_iff]
    rw [le_div_iff₀ (by norm_num : (0:ℚ) < 3600)]
    simp
  have hdb : (0 ≤ (b : ℚ) / 3600) = (0 ≤ b) := by
    simp only [eq_iff_iff]
    rw [le_div_iff₀ (by norm_num : (0:ℚ) < 3600)]
    simp
  simp only [ha1, hb1, Int.toNat_natCast, hda, hdb, List.append_assoc,
    List.cons_append, List.nil_append]

theorem stripComma_of_head_ne {c : Char} (t : Str) (h : c ≠ ',') :
    stripComma (c :: t) = c :: t := by
  unfold stripComma
  split
  · rename_i he
    injection he with he1 _
    exact absurd he1 h
  · rfl

theorem parse_direction_NS (P : Prop) [Decidable P] (X : Str) :
    parse_direction (' ' :: (if P then 'N' else 'S') :: X) true =
      some ((if P then false else true), X) := by
  split_ifs with h <;> simp [parse_direction, trimL, isWs]

theorem parse_direction_EW (P : Prop) [Decidable P] (X : Str) :
    parse_direction (' ' :: (if P then 'E' else 'W') :: X) false =
      some ((if P then false else true), X) := by
  split_ifs with h <;> simp [parse_direction, trimL, isWs]

theorem trimL_eq_of_head {l : Str} {c : Char} {t : Str} (hl : l = c :: t)
    (hc : isWs c = false) : trimL l = l := by
  rw [hl]; exact trimL_of_head t hc

theorem trim_eq_of {l : Str} {c : Char} {t : Str} (hl : l = c :: t)
    (hc : isWs c = false) {d : Char} {m : Str} (hl2 : l = m ++ [d])
    (hd : isWs d = false) : trim l = l := by
  rw [trim, trimL_eq_of_head hl hc, hl2, trimR_of_last _ hd, ← hl2]

/-- C5: coordinate round trip.  For every coordinate whose latitude and
longitude are integer numbers `a`, `b` of arc-seconds with `|lat| ≤ 90`
(`|a| ≤ 324000 = 90 * 3600`) and `|lng| ≤ 180` (`|b| ≤ 648000`),
`Coord.parse (Coord.write c) = .ok c`. -/
theorem c5_coord_roundtrip (a b : ℤ) (ha : a.natAbs ≤ 324000)
    (hb : b.natAbs ≤ 648000) :
    Coord.parse (Coord.write ⟨(a : ℚ) / 3600, (b : ℚ) / 3600⟩) =
      .ok ⟨(a : ℚ) / 3600, (b : ℚ) / 3600⟩ := by
  rw [coord_write_explicit]
  -- names for the pieces
  set latD : Char := if 0 ≤ a then 'N' else 'S' with hlatD
  set lngD : Char := if 0 ≤ b then 'E' else 'W' with hlngD
  set lngComp : Str := padNum 3 (b.natAbs / 3600) ++ ':' ::
    (padNum 2 (b.natAbs % 3600 / 60) ++ ':' :: (padNum 2 (b.natAbs % 60) ++
    [' ', lngD])) with hlngComp
  set data : Str := padNum 2 (a.natAbs / 3600) ++ ':' ::
    (padNum 2 (a.natAbs % 3600 / 60) ++ ':' :: (padNum 2 (a.natAbs % 60) ++
    (' ' :: latD :: ' ' :: lngComp))) with hdata
  have hlatD_ws : isWs latD = false := by
    rw [hlatD]; split_ifs <;> decide
  have hlngD_ws : isWs lngD = false := by
    rw [hlngD]; split_ifs <;> decide
  -- trim is the identity on the written string
  obtain ⟨c0, t0, hct⟩ := List.exists_cons_of_ne_nil
    (padNum_ne_nil 2 (a.natAbs / 3600))
  have hc0 : isWs c0 = false :=
    not_isWs_of_isDigit (padNum_all_digits 2 _ c0 (by rw [hct]; simp))
  have hdata_head : data = c0 :: (t0 ++ ':' ::
      (padNum 2 (a.natAbs % 3600 / 60) ++ ':' :: (padNum 2 (a.natAbs % 60) ++
      (' ' :: latD :: ' ' :: lngComp)))) := by
    rw [hdata, hct]; simp
  have hdata_last : data = (padNum 2 (a.natAbs / 3600) ++ ':' ::
      (padNum 2 (a.natAbs % 3600 / 60) ++ ':' :: (padNum 2 (a.natAbs % 60) ++
      (' ' :: latD :: ' ' :: (padNum 3 (b.natAbs / 3600) ++ ':' ::
      (padNum 2 (b.natAbs % 3600 / 60) ++ ':' :: (padNum 2 (b.natAbs % 60) ++
      [' ']))))))) ++ [lngD] := by
    rw [hdata, hlngComp]; simp
  have htrim : trim data = data := trim_eq_of hdata_head hc0 hdata_last hlngD_ws
  -- latitude component
  have hcomp1 := parse_comp_writeStr true (a.natAbs / 3600)
    (a.natAbs % 3600 / 60) (a.natAbs % 60)
    (' ' :: latD :: ' ' :: lngComp)
    (by simp; omega) (by omega) (by omega)
    (by intro c t hct'
        injection hct' with h1 _
        subst h1
        refine ⟨by decide, by decide, by decide⟩)
  simp only [if_true] at hcomp1
  -- longitude component
  have hcomp2 := parse_comp_writeStr false (b.natAbs / 3600)
    (b.natAbs % 3600 / 60) (b.natAbs % 60) ([' '] ++ [lngD])
    (by simp; omega) (by omega) (by omega)
    (by intro c t hct'
        injection hct' with h1 _
        subst h1
        refine ⟨by decide, by decide, by decide⟩)
  simp only [Bool.false_eq_true, if_false, List.singleton_append] at hcomp2
  rw [← hdata] at hcomp1
  -- direction after the latitude
  have hdir1 : parse_direction (' ' :: latD :: ' ' :: lngComp) true =
      some ((if 0 ≤ a then false else true), ' ' :: lngComp) := by
    rw [hlatD]; exact parse_direction_NS _ _
  -- skipping whitespace/comma before the longitude
  obtain ⟨c1, t1, hct1⟩ := List.exists_cons_of_ne_nil
    (padNum_ne_nil 3 (b.natAbs / 3600))
  have hc1d : c1.isDigit = true :=
    padNum_all_digits 3 _ c1 (by rw [hct1]; simp)
  have hc1ws : isWs c1 = false := not_isWs_of_isDigit hc1d
  have hlng_head : lngComp = c1 :: (t1 ++ ':' ::
      (padNum 2 (b.natAbs % 3600 / 60) ++ ':' :: (padNum 2 (b.natAbs % 60) ++
      [' ', lngD]))) := by
    rw [hlngComp, hct1]; simp
  have hws_sp : isWs ' ' = true := by decide
  have htrimL1 : trimL (' ' :: lngComp) = lngComp := by
    rw [hlng_head]
    simp [trimL, List.dropWhile_cons, hws_sp, hc1ws]
  have hmatch : stripComma lngComp = lngComp := by
    rw [hlng_head]
    exact stripComma_of_head_ne _ (ne_of_isDigit_of_not hc1d (by decide))
  have htrimL2 : trimL lngComp = lngComp := by
    rw [hlng_head]
    exact trimL_of_head _ hc1ws
  -- direction after the longitude
  have hdir2 : parse_direction [' ', lngD] false =
      some ((if 0 ≤ b then false else true), []) := by
    rw [hlngD]; exact parse_direction_EW _ _
  unfold Coord.parse
  dsimp only
  rw [htrim]
  simp only [hcomp1]
  simp only [hdir1]
  simp only [htrimL1]
  rw [hmatch]
  simp only [htrimL2]
  simp only [hlngComp, hcomp2, hdir2]
  rw [dms_arith, dms_arith]
  have hcast_a : ((a.natAbs : ℕ) : ℚ) = |(a : ℚ)| := by
    rw [Int.cast_natAbs, Int.cast_abs]
  have hcast_b : ((b.natAbs : ℕ) : ℚ) = |(b : ℚ)| := by
    rw [Int.cast_natAbs, Int.cast_abs]
  by_cases ha0 : 0 ≤ a <;> by_cases hb0 : 0 ≤ b
  · have ha' : |(a : ℚ)| = (a : ℚ) := abs_of_nonneg (by exact_mod_cast ha0)
    have hb' : |(b : ℚ)| = (b : ℚ) := abs_of_nonneg (by exact_mod_cast hb0)
    simp only [ha0, hb0, if_true, Bool.false_eq_true, if_false, hcast_a,
      hcast_b, ha', hb']
  · have ha' : |(a : ℚ)| = (a : ℚ) := abs_of_nonneg (by exact_mod_cast ha0)
    have hb' : |(b : ℚ)| = -(b : ℚ) :=
      abs_of_neg (by exact_mod_cast (show b < 0 by omega))
    simp only [ha0, hb0, if_true, Bool.false_eq_true, if_false, hcast_a,
      hcast_b, ha', hb']
    simp only [Except.ok.injEq, Coord.mk.injEq]
    exact ⟨by trivial, by ring⟩
  · have ha' : |(a : ℚ)| = -(a : ℚ) :=
      abs_of_neg (by exact_mod_cast (show a < 0 by omega))
    have hb' : |(b : ℚ)| = (b : ℚ) := abs_of_nonneg (by exact_mod_cast hb0)
    simp only [ha0, hb0, if_true, Bool.false_eq_true, if_false, hcast_a,
      hcast_b, ha', hb']
    simp only [Except.ok.injEq, Coord.mk.injEq]
    exact ⟨by ring, by trivial⟩
  · have ha' : |(a : ℚ)| = -(a : ℚ) :=
      abs_of_neg (by exact_mod_cast (show a < 0 by omega))
    have hb' : |(b : ℚ)| = -(b : ℚ) :=
      abs_of_neg (by exact_mod_cast (show b < 0 by omega))
    simp only [ha0, hb0, if_true, Bool.false_eq_true, if_false, hcast_a,
      hcast_b, ha', hb']
    simp only [Except.ok.injEq, Coord.mk.injEq]
    exact ⟨by ring, by ring⟩


/-! ### Coordinate parse bounds (C3) -/

theorem parseNatDigits_some {l : Str} {v : ℕ} (h : parseNatDigits l = some v) :
    l ≠ [] ∧ (∀ c ∈ l, c.isDigit = true) ∧ v = digitsVal l := by
  unfold parseNatDigits at h
  split at h
  · rename_i hc
    cases h
    refine ⟨hc.1, ?_, rfl⟩
    intro c hcl
    have := hc.2
    simp [allDigits, List.all_eq_true] at this
    exact this c hcl
  · cases h

theorem parseUnsigned_some_lt {max : ℕ} {l : Str} {v : ℕ}
    (h : parseUnsigned max l = some v) : v < 10 ^ l.length ∧ v ≤ max := by
  unfold parseUnsigned at h
  split at h
  · rename_i v' hv'
    split at h
    · cases h
      obtain ⟨hne, hdig, hval⟩ := parseNatDigits_some hv'
      subst hval
      have hlt := digitsVal_lt _ hdig
      have hlen : (stripPlus l).length ≤ l.length := by
        unfold stripPlus
        split <;> simp
      constructor
      · calc digitsVal (stripPlus l) < 10 ^ (stripPlus l).length := hlt
          _ ≤ 10 ^ l.length := Nat.pow_le_pow_right (by omega) hlen
      · assumption
    · cases h
  · cases h

theorem parseU8_some_lt {l : Str} {v : ℕ} (h : parseU8 l = some v) :
    v < 10 ^ l.length ∧ v ≤ 255 := parseUnsigned_some_lt h

theorem digitsVal_nonneg_q (l : Str) : (0 : ℚ) ≤ (digitsVal l : ℚ) := by
  positivity

theorem parseDecimalQ_nonneg {l : Str} {q : ℚ}
    (h : parseDecimalQ l = some q) : 0 ≤ q := by
  unfold parseDecimalQ at h
  dsimp only at h
  split at h
  · split at h
    · cases h
    · cases h
      positivity
  · split at h
    · cases h
      positivity
    · cases h
  · cases h

theorem parseDecimalQ_lt {l : Str} {q : ℚ} (h : parseDecimalQ l = some q) :
    q < 10 ^ (l.takeWhile Char.isDigit).length + 1 := by
  unfold parseDecimalQ at h
  dsimp only at h
  split at h
  · split at h
    · cases h
    · cases h
      have hall : ∀ c ∈ l.takeWhile Char.isDigit, c.isDigit = true := by
        intro c hc
        exact List.mem_takeWhile_imp hc
      have := digitsVal_lt _ hall
      have h2 : (digitsVal (l.takeWhile Char.isDigit) : ℚ) <
          ((10 : ℕ) ^ (l.takeWhile Char.isDigit).length : ℕ) := by
        exact_mod_cast this
      push_cast at h2
      linarith
  · rename_i fp hfp
    split at h
    · rename_i hcond
      cases h
      have hall : ∀ c ∈ l.takeWhile Char.isDigit, c.isDigit = true := by
        intro c hc
        exact List.mem_takeWhile_imp hc
      have h1 := digitsVal_lt _ hall
      have h1q : (digitsVal (l.takeWhile Char.isDigit) : ℚ) <
          ((10 : ℕ) ^ (l.takeWhile Char.isDigit).length : ℕ) := by
        exact_mod_cast h1
      have hallfp : ∀ c ∈ fp, c.isDigit = true := by
        have := hcond.1
        simp [allDigits, List.all_eq_true] at this
        exact this
      have h2 := digitsVal_lt _ hallfp
      have h2q : (digitsVal fp : ℚ) < ((10 : ℕ) ^ fp.length : ℕ) := by
        exact_mod_cast h2
      have hpow : (0 : ℚ) < (10 : ℚ) ^ fp.length := by positivity
      have hfrac : (digitsVal fp : ℚ) / (10 : ℚ) ^ fp.length < 1 := by
        rw [div_lt_one hpow]
        push_cast at h2q
        linarith
      push_cast at h1q
      have hfr0 : (0:ℚ) ≤ (digitsVal fp : ℚ) / (10 : ℚ) ^ fp.length := by
        positivity
      linarith
    · cases h
  · cases h

theorem findIdxP_getD_eq_takeWhile_length (p : Char → Bool) :
    ∀ l : Str, (findIdxP (fun c => !(p c)) l).getD l.length =
      (l.takeWhile p).length := by
  intro l
  induction l with
  | nil => simp [findIdxP]
  | cons c t ih =>
    rw [findIdxP_cons, List.takeWhile_cons]
    by_cases hc : p c = true
    · rw [if_neg (by simp [hc]), if_pos hc]
      simp only [List.length_cons]
      cases hfd : findIdxP (fun c => !(p c)) t
      · rw [hfd] at ih
        simp at ih ⊢
        omega
      · rw [hfd] at ih
        simp at ih ⊢
        omega
    · rw [if_pos (by simp [hc]), if_neg hc]
      simp

theorem takeWhile_take_length_le (p : Char → Bool) :
    ∀ (l : Str) (k : ℕ),
      ((l.take k).takeWhile p).length ≤ (l.takeWhile p).length := by
  intro l
  induction l with
  | nil => intro k; simp
  | cons c t ih =>
    intro k
    cases k with
    | zero => simp
    | succ k =>
      rw [List.take_succ_cons, List.takeWhile_cons, List.takeWhile_cons]
      by_cases hc : p c = true
      · rw [if_pos hc, if_pos hc]
        simp only [List.length_cons]
        exact Nat.succ_le_succ (ih k)
      · rw [if_neg hc, if_neg hc]

theorem takeWhile_take_dot (t : Str) (k : ℕ) :
    ((('.' :: t).take k).takeWhile Char.isDigit) = [] := by
  cases k with
  | zero => simp
  | succ k =>
    rw [List.take_succ_cons, List.takeWhile_cons]
    rw [if_neg (by decide)]

theorem parse_coord_component_bounds {input : Str} {isLat : Bool} {q : ℚ}
    {rest : Str} (h : parse_coord_component input isLat = some (q, rest)) :
    0 ≤ q ∧ q < (if isLat then 92 else 182) := by
  cases isLat

  · -- longitude: degrees validated against 180
    unfold parse_coord_component at h
    dsimp only at h
    simp only [Bool.false_eq_true, if_false, false_and, not_false_iff, true_and, false_or, gt_iff_lt] at h
    split at h
    · cases h
    · rename_i pos hpos
      split at h
      · cases h
      · rename_i hposle
        split at h
        · cases h
        · rename_i degrees hdeg
          split at h
          · cases h
          · rename_i hdegok
            split at h
            · rename_i rest1 hdrop
              split at h
              · cases h
              · rename_i mpos hmpos
                split at h
                · cases h
                · rename_i hmposle
                  split at h
                  · cases h
                  · rename_i minutes hmin
                    have hdegB : degrees ≤ 180 := by
                      simp at hdegok
                      omega
                    have hminB : minutes ≤ 99 := by
                      have := (parseU8_some_lt hmin).1
                      have hlen : (rest1.take mpos).length ≤ 2 := by
                        rw [List.length_take]
                        omega
                      have hpow : (10 : ℕ) ^ (rest1.take mpos).length ≤ 10 ^ 2 :=
                        Nat.pow_le_pow_right (by omega) hlen
                      have h100 : (10:ℕ) ^ 2 = 100 := by norm_num
                      omega
                    have hd' : (degrees : ℚ) ≤ 180 := by exact_mod_cast hdegB
                    have hm' : (minutes : ℚ) ≤ 99 := by exact_mod_cast hminB
                    split at h
                    · rename_i hddm
                      split at h
                      · cases h
                      · rename_i frac hfrac
                        rw [Option.some.injEq, Prod.mk.injEq] at h
                        obtain ⟨hq, -⟩ := h
                        subst hq
                        have hf0 : 0 ≤ frac := parseDecimalQ_nonneg hfrac
                        have hf2 : frac < 2 := by
                          have hlt := parseDecimalQ_lt hfrac
                          obtain ⟨t', ht'⟩ : ∃ t', rest1.drop mpos = '.' :: t' := by
                            cases hdm : rest1.drop mpos with
                            | nil => rw [hdm] at hddm; simp at hddm
                            | cons x xs =>
                              rw [hdm] at hddm
                              simp at hddm
                              exact ⟨xs, by rw [hddm]⟩
                          rw [ht', takeWhile_take_dot] at hlt
                          norm_num at hlt
                          exact hlt
                        constructor
                        · positivity
                        · simp only [Bool.false_eq_true, if_false]
                          linarith
                    · split at h
                      · rename_i rest3 hrest2
                        split at h
                        · cases h
                        · rename_i hintpos
                          split at h
                          · cases h
                          · rename_i seconds hsec
                            rw [Option.some.injEq, Prod.mk.injEq] at h
                            obtain ⟨hq, -⟩ := h
                            subst hq
                            have hs0 : 0 ≤ seconds := parseDecimalQ_nonneg hsec
                            have hs101 : seconds < 101 := by
                              have hlt := parseDecimalQ_lt hsec
                              rw [findIdxP_getD_eq_takeWhile_length] at hintpos
                              have htk := takeWhile_take_length_le Char.isDigit
                                rest3 ((findIdxP (fun c => !c.isDigit && c != '.') rest3).getD rest3.length)
                              have hle2 : ((rest3.take ((findIdxP (fun c => !c.isDigit && c != '.') rest3).getD rest3.length)).takeWhile Char.isDigit).length ≤ 2 := by
                                omega
                              have hpq : (10:ℚ) ^ ((rest3.take ((findIdxP (fun c => !c.isDigit && c != '.') rest3).getD rest3.length)).takeWhile Char.isDigit).length ≤ 10 ^ 2 := by
                                apply pow_le_pow_right₀ (by norm_num) hle2
                              have h100 : ((10:ℚ)) ^ 2 = 100 := by norm_num
                              linarith
                            constructor
                            · positivity
                            · simp only [Bool.false_eq_true, if_false]
                              linarith
                      · cases h
            · cases h

  · -- latitude: degrees validated against 90
    unfold parse_coord_component at h
    dsimp only at h
    simp only [if_true, true_and, not_true, false_and, or_false, not_lt, gt_iff_lt] at h
    split at h
    · cases h
    · rename_i pos hpos
      split at h
      · cases h
      · rename_i hposle
        split at h
        · cases h
        · rename_i degrees hdeg
          split at h
          · cases h
          · rename_i hdegok
            split at h
            · rename_i rest1 hdrop
              split at h
              · cases h
              · rename_i mpos hmpos
                split at h
                · cases h
                · rename_i hmposle
                  split at h
                  · cases h
                  · rename_i minutes hmin
                    have hdegB : degrees ≤ 90 := by
                      simp at hdegok
                      omega
                    have hminB : minutes ≤ 99 := by
                      have := (parseU8_some_lt hmin).1
                      have hlen : (rest1.take mpos).length ≤ 2 := by
                        rw [List.length_take]
                        omega
                      have hpow : (10 : ℕ) ^ (rest1.take mpos).length ≤ 10 ^ 2 :=
                        Nat.pow_le_pow_right (by omega) hlen
                      have h100 : (10:ℕ) ^ 2 = 100 := by norm_num
                      omega
                    have hd' : (degrees : ℚ) ≤ 90 := by exact_mod_cast hdegB
                    have hm' : (minutes : ℚ) ≤ 99 := by exact_mod_cast hminB
                    split at h
                    · rename_i hddm
                      split at h
                      · cases h
                      · rename_i frac hfrac
                        rw [Option.some.injEq, Prod.mk.injEq] at h
                        obtain ⟨hq, -⟩ := h
                        subst hq
                        have hf0 : 0 ≤ frac := parseDecimalQ_nonneg hfrac
                        have hf2 : frac < 2 := by
                          have hlt := parseDecimalQ_lt hfrac
                          obtain ⟨t', ht'⟩ : ∃ t', rest1.drop mpos = '.' :: t' := by
                            cases hdm : rest1.drop mpos with
                            | nil => rw [hdm] at hddm; simp at hddm
                            | cons x xs =>
                              rw [hdm] at hddm
                              simp at hddm
                              exact ⟨xs, by rw [hddm]⟩
                          rw [ht', takeWhile_take_dot] at hlt
                          norm_num at hlt
                          exact hlt
                        constructor
                        · positivity
                        · simp only [if_true]
                          linarith
                    · split at h
                      · rename_i rest3 hrest2
                        split at h
                        · cases h
                        · rename_i hintpos
                          split at h
                          · cases h
                          · rename_i seconds hsec
                            rw [Option.some.injEq, Prod.mk.injEq] at h
                            obtain ⟨hq, -⟩ := h
                            subst hq
                            have hs0 : 0 ≤ seconds := parseDecimalQ_nonneg hsec
                            have hs101 : seconds < 101 := by
                              have hlt := parseDecimalQ_lt hsec
                              rw [findIdxP_getD_eq_takeWhile_length] at hintpos
                              have htk := takeWhile_take_length_le Char.isDigit
                                rest3 ((findIdxP (fun c => !c.isDigit && c != '.') rest3).getD rest3.length)
                              have hle2 : ((rest3.take ((findIdxP (fun c => !c.isDigit && c != '.') rest3).getD rest3.length)).takeWhile Char.isDigit).length ≤ 2 := by
                                omega
                              have hpq : (10:ℚ) ^ ((rest3.take ((findIdxP (fun c => !c.isDigit && c != '.') rest3).getD rest3.length)).takeWhile Char.isDigit).length ≤ 10 ^ 2 := by
                                apply pow_le_pow_right₀ (by norm_num) hle2
                              have h100 : ((10:ℚ)) ^ 2 = 100 := by norm_num
                              linarith
                            constructor
                            · positivity
                            · simp only [if_true]
                              linarith
                      · cases h
            · cases h

/-- C3: every coordinate produced by a successful `Coord.parse` satisfies
`|lat| < 92` and `|lng| < 182`.  The spec claims `|lat| ≤ 90` and
`|lng| ≤ 180`, but the parser accepts minute and second fields up to 60
(`42:60:00` parses), so a parsed latitude can exceed 90 degrees; the bounds
proved here are the tight ones the validation actually enforces. -/
theorem c3_coord_bounds {data : Str} {c : Coord}
    (h : Coord.parse data = .ok c) : |c.lat| < 92 ∧ |c.lng| < 182 := by
  unfold Coord.parse at h
  dsimp only at h
  split at h
  · cases h
  · rename_i lat0 rest hlat
    split at h
    · cases h
    · rename_i latNeg rest1 hdir
      split at h
      · cases h
      · rename_i lng0 rest2 hlng
        split at h
        · cases h
        · rename_i lngNeg rest3 hdir2
          rw [Except.ok.injEq] at h
          subst h
          obtain ⟨hlat0, hlat92⟩ := parse_coord_component_bounds hlat
          obtain ⟨hlng0, hlng182⟩ := parse_coord_component_bounds hlng
          simp only [if_true] at hlat92
          simp only [Bool.false_eq_true, if_false] at hlng182
          constructor
          · cases latNeg <;> simp <;> rw [abs_of_nonneg hlat0] <;> linarith
          · cases lngNeg <;> simp <;> rw [abs_of_nonneg hlng0] <;> linarith


/-! ### Altitude round trip (C2) -/

theorem altitude_parse_gnd :
    Altitude.parse (Altitude.write .Gnd) = .ok .Gnd := by decide

theorem altitude_parse_unl :
    Altitude.parse (Altitude.write .Unlimited) = .ok .Unlimited := by decide

theorem altitude_parse_fl {n : ℕ} (hn : n ≤ 65535) :
    Altitude.parse (Altitude.write (.FlightLevel n)) = .ok (.FlightLevel n) := by
  obtain ⟨k, t, hk, ht⟩ := natDigits_head n
  have hkd := isDigit_digitChar hk
  have hw : Altitude.write (.FlightLevel n) = 'F' :: 'L' :: natDigits n := rfl
  rw [hw]
  unfold Altitude.parse
  have h1 : eqIgnoreCase ('F' :: 'L' :: natDigits n) (("gnd").data) = false :=
    eqIgnoreCase_head_false _ _ (by decide)
  have h2 : eqIgnoreCase ('F' :: 'L' :: natDigits n) (("sfc").data) = false :=
    eqIgnoreCase_head_false _ _ (by decide)
  have h3 : ('F' :: 'L' :: natDigits n ≠ ("0").data) := by
    intro he
    injection he with he1 _
    cases he1
  have h4 : eqIgnoreCase ('F' :: 'L' :: natDigits n) (("unl").data) = false :=
    eqIgnoreCase_head_false _ _ (by decide)
  have h5 : eqIgnoreCase ('F' :: 'L' :: natDigits n) (("unlim").data) = false :=
    eqIgnoreCase_head_false _ _ (by decide)
  have h6 : eqIgnoreCase ('F' :: 'L' :: natDigits n) (("unltd").data) = false :=
    eqIgnoreCase_head_false _ _ (by decide)
  have h7 : eqIgnoreCase ('F' :: 'L' :: natDigits n)
      (("unlimited").data) = false :=
    eqIgnoreCase_head_false _ _ (by decide)
  have hstrip : stripPrefixCi ('F' :: 'L' :: natDigits n) (("fl").data)
      = some (natDigits n) := by
    unfold stripPrefixCi
    rw [if_pos]
    · simp
    · constructor
      · simp
      · have : List.take (("fl").data).length ('F' :: 'L' :: natDigits n)
            = ['F', 'L'] := by
          simp
        rw [this]
        decide
  have htr : trim (natDigits n) = natDigits n :=
    trim_of_all (fun c hc => not_isWs_of_isDigit (natDigits_all_digits n c hc))
  simp only [h1, h2, h3, h4, h5, h6, h7, hstrip, htr, Bool.or_self,
    Bool.or_false, Bool.false_or, if_false,
    parseU16_natDigits hn]
  simp [h3]

theorem altitude_parse_Amsl {n : ℤ} (h0 : 0 ≤ n) (hn : n ≤ 2147483647) :
    Altitude.parse (Altitude.write (.FeetAmsl n)) = .ok (.FeetAmsl n) := by
  set m := n.natAbs with hm
  have hw : Altitude.write (.FeetAmsl n) =
      natDigits m ++ ("ft AMSL").data := by
    show intStr n ++ _ = _
    unfold intStr
    rw [if_neg (by omega)]
  obtain ⟨k, t, hk, ht⟩ := natDigits_head m
  have hkd := isDigit_digitChar hk
  have hdata : natDigits m ++ ("ft AMSL").data =
      Nat.digitChar k :: (t ++ ("ft AMSL").data) := by rw [ht]; simp
  rw [hw, hdata]
  unfold Altitude.parse
  have hXne : t ++ ("ft AMSL").data ≠ [] := by simp
  have hgnd : eqIgnoreCase (Nat.digitChar k :: (t ++ ("ft AMSL").data))
      (("gnd").data) = false :=
    eqIgnoreCase_head_false _ _ (lowerChar_digit_ne hkd (by decide))
  have hsfc : eqIgnoreCase (Nat.digitChar k :: (t ++ ("ft AMSL").data))
      (("sfc").data) = false :=
    eqIgnoreCase_head_false _ _ (lowerChar_digit_ne hkd (by decide))
  have hz : (Nat.digitChar k :: (t ++ ("ft AMSL").data)) ≠ ("0").data := by
    intro he
    injection he with _ he2
    exact hXne he2
  have hu1 : eqIgnoreCase (Nat.digitChar k :: (t ++ ("ft AMSL").data))
      (("unl").data) = false :=
    eqIgnoreCase_head_false _ _ (lowerChar_digit_ne hkd (by decide))
  have hu2 : eqIgnoreCase (Nat.digitChar k :: (t ++ ("ft AMSL").data))
      (("unlim").data) = false :=
    eqIgnoreCase_head_false _ _ (lowerChar_digit_ne hkd (by decide))
  have hu3 : eqIgnoreCase (Nat.digitChar k :: (t ++ ("ft AMSL").data))
      (("unltd").data) = false :=
    eqIgnoreCase_head_false _ _ (lowerChar_digit_ne hkd (by decide))
  have hu4 : eqIgnoreCase (Nat.digitChar k :: (t ++ ("ft AMSL").data))
      (("unlimited").data) = false :=
    eqIgnoreCase_head_false _ _ (lowerChar_digit_ne hkd (by decide))
  have hfl : stripPrefixCi (Nat.digitChar k :: (t ++ ("ft AMSL").data))
      (("fl").data) = none := by
    unfold stripPrefixCi
    rw [if_neg]
    rintro ⟨-, heq⟩
    rw [show List.take ((("fl").data).length)
        (Nat.digitChar k :: (t ++ ("ft AMSL").data))
        = Nat.digitChar k :: List.take 1 (t ++ ("ft AMSL").data) from by
      simp] at heq
    rw [eqIgnoreCase_head_false _ _ (lowerChar_digit_ne hkd (by decide))] at heq
    cases heq
  have hscan : findIdxP (fun c => !c.isDigit)
      (Nat.digitChar k :: (t ++ ("ft AMSL").data))
      = some (natDigits m).length := by
    rw [← hdata, ht]
    rw [show (Nat.digitChar k :: t) ++ ("ft AMSL").data =
        (Nat.digitChar k :: t) ++ 'f' :: (("t AMSL").data) from by simp]
    rw [findIdxP_scan (by
        rw [← ht]
        exact nonDigit_false_of_digits (natDigits_all_digits m)) (by decide) _]
  have hgetD : (findIdxP (fun c => !c.isDigit)
      (Nat.digitChar k :: (t ++ ("ft AMSL").data))).getD
      (Nat.digitChar k :: (t ++ ("ft AMSL").data)).length
      = (natDigits m).length := by
    rw [hscan]
    simp
  have htake : List.take (natDigits m).length
      (Nat.digitChar k :: (t ++ ("ft AMSL").data)) = natDigits m := by
    rw [← hdata]
    exact List.take_left _ _
  have hdrop : List.drop (natDigits m).length
      (Nat.digitChar k :: (t ++ ("ft AMSL").data)) = ("ft AMSL").data := by
    rw [← hdata]
    exact List.drop_left _ _
  have hi32 : parseI32 (natDigits m) = some ((m : ℕ) : ℤ) :=
    parseI32_natDigits (by omega)
  have hmz : ((m : ℕ) : ℤ) = n := by
    rw [hm]
    exact Int.natAbs_of_nonneg h0
  have htr : trim (("ft AMSL").data) = ("ft AMSL").data := by decide
  have hsx1 : is_amsl_suffix (("ft AMSL").data) = false := by decide
  have hsx2 : is_agl_suffix (("ft AMSL").data) = false := by decide
  have hspace : (findIdxP isWs (("ft AMSL").data)).getD
      ((("ft AMSL").data)).length = 2 := by decide
  have htakeu : List.take 2 (("ft AMSL").data) = ("ft").data := by decide
  have hdropu : trim (List.drop 2 (("ft AMSL").data)) = ("AMSL").data := by
    decide
  have hm1 : eqIgnoreCase (("ft").data) (("m").data) = false := by decide
  have hft : eqIgnoreCase (("ft").data) (("ft").data) = true := by decide
  have hsx3 : is_amsl_suffix (("AMSL").data) = true := by decide
  have hsx4 : is_agl_suffix (("AMSL").data) = false := by decide
  simp only [hgnd, hsfc, decide_eq_false hz, hu1, hu2, hu3, hu4, hfl, hgetD,
    htake, hdrop, hi32, htr, hsx1, hsx2, hspace, htakeu, hdropu, hm1, hft,
    hsx3, hsx4, hmz, Bool.or_false, Bool.false_or, Bool.or_self,
    Bool.not_true, Bool.not_false, if_false, if_true, Bool.false_eq_true,
    Bool.true_eq_false]

theorem altitude_parse_Agl {n : ℤ} (h0 : 0 ≤ n) (hn : n ≤ 2147483647) :
    Altitude.parse (Altitude.write (.FeetAgl n)) = .ok (.FeetAgl n) := by
  set m := n.natAbs with hm
  have hw : Altitude.write (.FeetAgl n) =
      natDigits m ++ ("ft AGL").data := by
    show intStr n ++ _ = _
    unfold intStr
    rw [if_neg (by omega)]
  obtain ⟨k, t, hk, ht⟩ := natDigits_head m
  have hkd := isDigit_digitChar hk
  have hdata : natDigits m ++ ("ft AGL").data =
      Nat.digitChar k :: (t ++ ("ft AGL").data) := by rw [ht]; simp
  rw [hw, hdata]
  unfold Altitude.parse
  have hXne : t ++ ("ft AGL").data ≠ [] := by simp
  have hgnd : eqIgnoreCase (Nat.digitChar k :: (t ++ ("ft AGL").data))
      (("gnd").data) = false :=
    eqIgnoreCase_head_false _ _ (lowerChar_digit_ne hkd (by decide))
  have hsfc : eqIgnoreCase (Nat.digitChar k :: (t ++ ("ft AGL").data))
      (("sfc").data) = false :=
    eqIgnoreCase_head_false _ _ (lowerChar_digit_ne hkd (by decide))
  have hz : (Nat.digitChar k :: (t ++ ("ft AGL").data)) ≠ ("0").data := by
    intro he
    injection he with _ he2
    exact hXne he2
  have hu1 : eqIgnoreCase (Nat.digitChar k :: (t ++ ("ft AGL").data))
      (("unl").data) = false :=
    eqIgnoreCase_head_false _ _ (lowerChar_digit_ne hkd (by decide))
  have hu2 : eqIgnoreCase (Nat.digitChar k :: (t ++ ("ft AGL").data))
      (("unlim").data) = false :=
    eqIgnoreCase_head_false _ _ (lowerChar_digit_ne hkd (by decide))
  have hu3 : eqIgnoreCase (Nat.digitChar k :: (t ++ ("ft AGL").data))
      (("unltd").data) = false :=
    eqIgnoreCase_head_false _ _ (lowerChar_digit_ne hkd (by decide))
  have hu4 : eqIgnoreCase (Nat.digitChar k :: (t ++ ("ft AGL").data))
      (("unlimited").data) = false :=
    eqIgnoreCase_head_false _ _ (lowerChar_digit_ne hkd (by decide))
  have hfl : stripPrefixCi (Nat.digitChar k :: (t ++ ("ft AGL").data))
      (("fl").data) = none := by
    unfold stripPrefixCi
    rw [if_neg]
    rintro ⟨-, heq⟩
    rw [show List.take ((("fl").data).length)
        (Nat.digitChar k :: (t ++ ("ft AGL").data))
        = Nat.digitChar k :: List.take 1 (t ++ ("ft AGL").data) from by
      simp] at heq
    rw [eqIgnoreCase_head_false _ _ (lowerChar_digit_ne hkd (by decide))] at heq
    cases heq
  have hscan : findIdxP (fun c => !c.isDigit)
      (Nat.digitChar k :: (t ++ ("ft AGL").data))
      = some (natDigits m).length := by
    rw [← hdata, ht]
    rw [show (Nat.digitChar k :: t) ++ ("ft AGL").data =
        (Nat.digitChar k :: t) ++ 'f' :: (("t AGL").data) from by simp]
    rw [findIdxP_scan (by
        rw [← ht]
        exact nonDigit_false_of_digits (natDigits_all_digits m)) (by decide) _]
  have hgetD : (findIdxP (fun c => !c.isDigit)
      (Nat.digitChar k :: (t ++ ("ft AGL").data))).getD
      (Nat.digitChar k :: (t ++ ("ft AGL").data)).length
      = (natDigits m).length := by
    rw [hscan]
    simp
  have htake : List.take (natDigits m).length
      (Nat.digitChar k :: (t ++ ("ft AGL").data)) = natDigits m := by
    rw [← hdata]
    exact List.take_left _ _
  have hdrop : List.drop (natDigits m).length
      (Nat.digitChar k :: (t ++ ("ft AGL").data)) = ("ft AGL").data := by
    rw [← hdata]
    exact List.drop_left _ _
  have hi32 : parseI32 (natDigits m) = some ((m : ℕ) : ℤ) :=
    parseI32_natDigits (by omega)
  have hmz : ((m : ℕ) : ℤ) = n := by
    rw [hm]
    exact Int.natAbs_of_nonneg h0
  have htr : trim (("ft AGL").data) = ("ft AGL").data := by decide
  have hsx1 : is_amsl_suffix (("ft AGL").data) = false := by decide
  have hsx2 : is_agl_suffix (("ft AGL").data) = false := by decide
  have hspace : (findIdxP isWs (("ft AGL").data)).getD
      ((("ft AGL").data)).length = 2 := by decide
  have htakeu : List.take 2 (("ft AGL").data) = ("ft").data := by decide
  have hdropu : trim (List.drop 2 (("ft AGL").data)) = ("AGL").data := by
    decide
  have hm1 : eqIgnoreCase (("ft").data) (("m").data) = false := by decide
  have hft : eqIgnoreCase (("ft").data) (("ft").data) = true := by decide
  have hsx3 : is_amsl_suffix (("AGL").data) = false := by decide
  have hsx4 : is_agl_suffix (("AGL").data) = true := by decide
  simp only [hgnd, hsfc, decide_eq_false hz, hu1, hu2, hu3, hu4, hfl, hgetD,
    htake, hdrop, hi32, htr, hsx1, hsx2, hspace, htakeu, hdropu, hm1, hft,
    hsx3, hsx4, hmz, Bool.or_false, Bool.false_or, Bool.or_self,
    Bool.not_true, Bool.not_false, if_false, if_true, Bool.false_eq_true,
    Bool.true_eq_false]


/-! ### Driver lemmas: accumulation, blocks and end of input -/

theorem consume_cls_of_ne {acc : Acc} {r : Record} {acc' : Acc}
    (h : consume acc r = .ok acc') (hne : ∀ c, r ≠ .AirspaceClass c) :
    acc'.cls = acc.cls := by
  cases r
  case AirspaceClass c => exact absurd rfl (hne c)
  all_goals (
    simp only [consume] at h
    repeat' split at h
    all_goals (try cases h)
    all_goals rfl)

theorem nonClassLine_spec {l : Str} (h : nonClassLine l = true) :
    ∃ r, Record.parse (stripBom l) = .ok r ∧ ∀ c, r ≠ .AirspaceClass c := by
  unfold nonClassLine at h
  split at h
  · cases h
  · rename_i r hnefact hparse
    exact ⟨r, hparse, fun c he => hnefact c he⟩
  · cases h

theorem nextAirspace_accum {body : List Str} :
    ∀ {acc acc' : Acc} {rest : List Str},
      (∀ l ∈ body, nonClassLine l = true) →
      accumLines acc body = .ok acc' →
      nextAirspace acc (body ++ rest) = nextAirspace acc' rest := by
  induction body with
  | nil =>
    intro acc acc' rest _ hacc
    unfold accumLines at hacc
    cases hacc
    rfl
  | cons l t ih =>
    intro acc acc' rest hnc hacc
    obtain ⟨r, hr, hne⟩ := nonClassLine_spec (hnc l (by simp))
    unfold accumLines at hacc
    simp only [hr] at hacc
    split at hacc
    · cases hacc
    · rename_i acc2 hacc2
      rw [List.cons_append]
      conv_lhs => unfold nextAirspace
      simp only [hr]
      cases r
      case AirspaceClass c => exact absurd rfl (hne c)
      all_goals (
        dsimp only
        simp only [hacc2]
        exact ih (fun x hx => hnc x (by simp [hx])) hacc)

theorem accumLines_cls {body : List Str} :
    ∀ {acc acc' : Acc},
      (∀ l ∈ body, nonClassLine l = true) →
      accumLines acc body = .ok acc' →
      acc'.cls = acc.cls := by
  induction body with
  | nil =>
    intro acc acc' _ hacc
    unfold accumLines at hacc
    cases hacc
    rfl
  | cons l t ih =>
    intro acc acc' hnc hacc
    obtain ⟨r, hr, hne⟩ := nonClassLine_spec (hnc l (by simp))
    unfold accumLines at hacc
    simp only [hr] at hacc
    split at hacc
    · cases hacc
    · rename_i acc2 hacc2
      have h1 := ih (fun x hx => hnc x (by simp [hx])) hacc
      rw [h1]
      exact consume_cls_of_ne hacc2 hne



theorem blockOk_spec {b : Str × List Str} {a : Airspace}
    (h : blockOk b a = true) :
    ∃ c acc', Record.parse (stripBom b.1) = .ok (.AirspaceClass c) ∧
      (∀ l ∈ b.2, nonClassLine l = true) ∧
      accumLines { Acc.init with cls := some c } b.2 = .ok acc' ∧
      finish acc' c = .ok a := by
  unfold blockOk at h
  split at h
  · rename_i c hc
    rw [Bool.and_eq_true] at h
    obtain ⟨h1, h2⟩ := h
    split at h2
    · rename_i acc' hacc
      exact ⟨c, acc', hc, by simpa [List.all_eq_true] using h1, hacc,
        of_decide_eq_true h2⟩
    · cases h2
  · cases h

theorem nextAirspace_block {acLine : Str} {c : OpenAir.Class} {body : List Str}
    {acc' : Acc} {a : Airspace} {rest : List Str}
    (hac : Record.parse (stripBom acLine) = .ok (.AirspaceClass c))
    (hnc : ∀ l ∈ body, nonClassLine l = true)
    (hacc : accumLines { Acc.init with cls := some c } body = .ok acc')
    (hfin : finish acc' c = .ok a)
    (hrest : rest = [] ∨ ∃ l2 t2 c2, rest = l2 :: t2 ∧
      Record.parse (stripBom l2) = .ok (.AirspaceClass c2)) :
    nextAirspace Acc.init (acLine :: (body ++ rest)) = .ok (some a, rest) := by
  conv_lhs => unfold nextAirspace
  simp only [hac, show Acc.init.cls = none from rfl]
  have hstep : consume Acc.init (.AirspaceClass c) =
      .ok { Acc.init with cls := some c } := rfl
  simp only [hstep]
  dsimp only at hacc ⊢
  rw [nextAirspace_accum hnc hacc]
  have hcls : acc'.cls = some c := accumLines_cls hnc hacc
  rcases hrest with hr0 | ⟨l2, t2, c2, hr2, hp2⟩
  · subst hr0
    unfold nextAirspace
    simp only [hcls, hfin]
  · subst hr2
    unfold nextAirspace
    simp only [hp2, hcls, hfin]

theorem joinBlocks_cons (b : Str × List Str) (bs : List (Str × List Str)) :
    joinBlocks (b :: bs) = b.1 :: (b.2 ++ joinBlocks bs) := by
  simp [joinBlocks]

theorem joinBlocks_length_ge (bs : List (Str × List Str)) :
    bs.length ≤ (joinBlocks bs).length := by
  induction bs with
  | nil => simp [joinBlocks]
  | cons b t ih =>
    rw [joinBlocks_cons]
    simp only [List.length_cons, List.length_append]
    omega

theorem parseAllAux_blocks :
    ∀ (bs : List (Str × List Str)) (as : List Airspace) (fuel : ℕ),
      bs.length + 1 ≤ fuel →
      bs.length = as.length →
      ((bs.zip as).all fun p => blockOk p.1 p.2) = true →
      parseAllAux fuel (joinBlocks bs) = .ok as := by
  intro bs
  induction bs with
  | nil =>
    intro as fuel hf hlen _
    cases as with
    | nil =>
      cases fuel with
      | zero => omega
      | succ f =>
        unfold parseAllAux
        have h0 : joinBlocks [] = [] := rfl
        rw [h0]
        rfl
    | cons a as' => simp at hlen
  | cons b bs ih =>
    intro as fuel hf hlen hall
    cases as with
    | nil => simp at hlen
    | cons a as' =>
      rw [List.zip_cons_cons, List.all_cons, Bool.and_eq_true] at hall
      obtain ⟨hb, hrest_all⟩ := hall
      obtain ⟨c, acc', hac, hnc, hacc, hfin⟩ := blockOk_spec hb
      have hrest : joinBlocks bs = [] ∨ ∃ l2 t2 c2,
          joinBlocks bs = l2 :: t2 ∧
          Record.parse (stripBom l2) = .ok (.AirspaceClass c2) := by
        cases bs with
        | nil => left; rfl
        | cons b2 bs2 =>
          right
          cases as' with
          | nil => simp at hlen
          | cons a2 as2 =>
            rw [List.zip_cons_cons, List.all_cons, Bool.and_eq_true] at hrest_all
            obtain ⟨c2, acc2, hac2, -, -, -⟩ := blockOk_spec hrest_all.1
            exact ⟨b2.1, b2.2 ++ joinBlocks bs2, c2, joinBlocks_cons b2 bs2,
              hac2⟩
      cases fuel with
      | zero => omega
      | succ f =>
        unfold parseAllAux
        rw [joinBlocks_cons]
        simp only [nextAirspace_block hac hnc hacc hfin hrest]
        simp only [ih as' f (by simp at hf ⊢; omega) (by simpa using hlen)
          hrest_all]

theorem nextAirspace_eof_no_class {ls : List Str} {acc' : Acc}
    (hnc : ∀ l ∈ ls, nonClassLine l = true)
    (hacc : accumLines Acc.init ls = .ok acc') :
    nextAirspace Acc.init ls = .ok (none, []) := by
  have h1 : nextAirspace Acc.init (ls ++ []) = nextAirspace acc' [] :=
    nextAirspace_accum hnc hacc
  rw [List.append_nil] at h1
  rw [h1]
  have hcls : acc'.cls = none := by
    rw [accumLines_cls hnc hacc]
    rfl
  unfold nextAirspace
  simp only [hcls]

theorem nextAirspace_eof_with_class {acLine : Str} {c : OpenAir.Class}
    {body : List Str} {acc' : Acc}
    (hac : Record.parse (stripBom acLine) = .ok (.AirspaceClass c))
    (hnc : ∀ l ∈ body, nonClassLine l = true)
    (hacc : accumLines { Acc.init with cls := some c } body = .ok acc') :
    nextAirspace Acc.init (acLine :: body) =
      (match finish acc' c with
       | .ok a => .ok (some a, [])
       | .error e => .error e) := by
  conv_lhs => unfold nextAirspace
  simp only [hac, show Acc.init.cls = none from rfl]
  have hstep : consume Acc.init (.AirspaceClass c) =
      .ok { Acc.init with cls := some c } := rfl
  simp only [hstep]
  dsimp only at hacc ⊢
  have h1 : nextAirspace { Acc.init with cls := some c } (body ++ []) =
      nextAirspace acc' [] := nextAirspace_accum hnc hacc
  rw [List.append_nil] at h1
  rw [h1]
  have hcls : acc'.cls = some c := by
    rw [accumLines_cls hnc hacc]
  unfold nextAirspace
  simp only [hcls]


/-! ### Claim theorems: angle validation, geometry rules, the writer,
blocks, altitudes, transponder codes and end of input -/


theorem c3_coord_bounds_cex : ∃ c, Coord.parse (("90:30:00 N 000:00:00 E").data) = .ok c ∧
    90 < |c.lat| :=
  ⟨⟨(90:ℚ)+30/60+0/3600, (0:ℚ)+0/60+0/3600⟩, rfl, by
    rw [abs_of_nonneg (by norm_num)]; norm_num⟩

theorem validate_angle_finite (x : ℚ) :
    validate_angle (.finite x) =
      if 360 < x then
        .error (("Angle ").data ++ f32Str (.finite x) ++ (" too large").data)
      else if x < 0 then
        .error (("Angle ").data ++ f32Str (.finite x) ++ (" is negative").data)
      else .ok (.finite x) := by
  unfold validate_angle
  simp [F32.gt, F32.lt]

/-- C8: `validate_angle` accepts a value exactly when it is NaN or a finite
value in the closed interval `[0, 360]`, and rejects exactly the
infinities and the finite values outside `[0, 360]`; the boundary values
0 and 360 are accepted.  The spec claims rejection exactly outside
`[0, 360]` "including non-finite" values, but NaN compares false on both
IEEE comparisons and is accepted. -/
theorem c8_angle_range (v : F32) :
    (validate_angle v = .ok v ↔
      (v = .nan ∨ ∃ x, v = .finite x ∧ 0 ≤ x ∧ x ≤ 360)) ∧
    ((∃ e, validate_angle v = .error e) ↔
      (v = .inf ∨ v = .negInf ∨ ∃ x, v = .finite x ∧ (x < 0 ∨ 360 < x))) ∧
    (validate_angle (.finite 0) = .ok (.finite 0)) ∧
    (validate_angle (.finite 360) = .ok (.finite 360)) := by
  refine ⟨?_, ?_, by rw [validate_angle_finite]; norm_num,
    by rw [validate_angle_finite]; norm_num⟩
  · cases v with
    | finite x =>
      rw [validate_angle_finite]
      constructor
      · intro h
        split at h
        · cases h
        · split at h
          · cases h
          · rename_i h1 h2
            exact Or.inr ⟨x, rfl, le_of_not_lt h2, le_of_not_lt h1⟩
      · rintro (h | ⟨x2, hx2, h0, h360⟩)
        · cases h
        · injection hx2 with hx2
          subst hx2
          rw [if_neg (not_lt.2 h360), if_neg (not_lt.2 h0)]
    | nan => simp [validate_angle, F32.gt, F32.lt]
    | inf => simp [validate_angle, F32.gt, F32.lt]
    | negInf => simp [validate_angle, F32.gt, F32.lt]
  · cases v with
    | finite x =>
      rw [validate_angle_finite]
      constructor
      · rintro ⟨e, he⟩
        split at he
        · rename_i h1
          exact Or.inr (Or.inr ⟨x, rfl, Or.inr h1⟩)
        · split at he
          · rename_i h2
            exact Or.inr (Or.inr ⟨x, rfl, Or.inl h2⟩)
          · cases he
      · rintro (h | h | ⟨x2, hx2, hout⟩)
        · cases h
        · cases h
        · injection hx2 with hx2
          subst hx2
          rcases hout with h | h
          · rcases lt_or_le 360 x with h1 | h1
            · exact ⟨_, by rw [if_pos h1]⟩
            · exact ⟨_, by rw [if_neg (not_lt.2 h1), if_pos h]⟩
          · exact ⟨_, by rw [if_pos h]⟩
    | nan => simp [validate_angle, F32.gt, F32.lt]
    | inf => exact ⟨fun _ => Or.inl rfl, fun _ => ⟨_, rfl⟩⟩
    | negInf => exact ⟨fun _ => Or.inr (Or.inl rfl), fun _ => ⟨_, rfl⟩⟩

/-- C7: geometry exclusivity in `consume`.  A point, arc or arc-segment
record with a Circle geometry set is a hard failure; a `DC` record with any
geometry set fails with "Geometry already set"; a `DC` record with no
centerpoint in scope fails with "Centerpoint missing"; otherwise a `DC`
record with a centerpoint and no geometry creates the Circle. -/
theorem c7_circle_rules (acc : Acc) :
    (∀ cp r c, acc.geom = some (.Circle cp r) →
      consume acc (.Point c) = .error (("Cannot add a point to a circle").data)) ∧
    (∀ cp r s e, acc.geom = some (.Circle cp r) →
      ∃ msg, consume acc (.ArcData s e) = .error msg) ∧
    (∀ cp r rad a1 a2, acc.geom = some (.Circle cp r) →
      ∃ msg, consume acc (.ArcSegmentData rad a1 a2) = .error msg) ∧
    (∀ g r, acc.geom = some g →
      consume acc (.CircleRadius r) = .error (("Geometry already set").data)) ∧
    (∀ r, acc.geom = none → acc.var_x = none →
      consume acc (.CircleRadius r) = .error (("Centerpoint missing").data)) ∧
    (∀ cp r, acc.geom = none → acc.var_x = some cp →
      consume acc (.CircleRadius r) = .ok { acc with geom := some (.Circle cp r) }) := by
  refine ⟨?_, ?_, ?_, ?_, ?_, ?_⟩
  · intro cp r c hg
    simp [consume, hg]
  · intro cp r s e hg
    cases hx : acc.var_x with
    | none => exact ⟨("Centerpoint missing").data, by simp [consume, hx]⟩
    | some cp2 =>
      exact ⟨("Cannot add a point to a circle").data, by simp [consume, hx, hg]⟩
  · intro cp r rad a1 a2 hg
    cases hx : acc.var_x with
    | none => exact ⟨("Centerpoint missing").data, by simp [consume, hx]⟩
    | some cp2 =>
      exact ⟨("Cannot add a point to a circle").data, by simp [consume, hx, hg]⟩
  · intro g r hg
    cases hx : acc.var_x with
    | none => simp [consume, hg, hx]
    | some cp2 => simp [consume, hg, hx]
  · intro r hg hx
    simp [consume, hg, hx]
  · intro cp r hg hx
    simp [consume, hg, hx]

theorem airspaceRecords_writeStr_ends (a : Airspace) :
    ∀ r ∈ airspaceRecords a, ∃ b, Record.writeStr r = b ++ crlf := by
  intro r hr
  rw [airspaceRecords] at hr
  simp only [List.mem_append, List.mem_singleton, List.mem_cons,
    List.not_mem_nil, or_false, or_assoc] at hr
  have hm : ∀ (x : Record), (∃ b, Record.writeStr x = b ++ crlf) ∨
      (x = .Comment ∨ x = .LabelPlacement ∨ x = .Pen ∨ x = .Brush) := by
    intro x
    cases x with
    | AirspaceClass c =>
      exact Or.inl ⟨("AC ").data ++ c.to_str, by
        simp [Record.writeStr, List.append_assoc]⟩
    | AirspaceName s =>
      exact Or.inl ⟨("AN ").data ++ s, by
        simp [Record.writeStr, List.append_assoc]⟩
    | LowerBound a =>
      exact Or.inl ⟨("AL ").data ++ a.write, by
        simp [Record.writeStr, List.append_assoc]⟩
    | UpperBound a =>
      exact Or.inl ⟨("AH ").data ++ a.write, by
        simp [Record.writeStr, List.append_assoc]⟩
    | AirspaceType s =>
      exact Or.inl ⟨("AY ").data ++ s, by
        simp [Record.writeStr, List.append_assoc]⟩
    | Frequency s =>
      exact Or.inl ⟨("AF ").data ++ s, by
        simp [Record.writeStr, List.append_assoc]⟩
    | CallSign s =>
      exact Or.inl ⟨("AG ").data ++ s, by
        simp [Record.writeStr, List.append_assoc]⟩
    | TransponderCode n =>
      exact Or.inl ⟨("AX ").data ++ natDigits n, by
        simp [Record.writeStr, List.append_assoc]⟩
    | ActivationTimes t =>
      exact Or.inl ⟨("AA ").data ++ t.write, by
        simp [Record.writeStr, List.append_assoc]⟩
    | UnknownExtension e => exact Or.inl ⟨e, rfl⟩
    | VarX c =>
      exact Or.inl ⟨("V X=").data ++ c.write, by
        simp [Record.writeStr, List.append_assoc]⟩
    | VarD d =>
      cases d with
      | Cw => exact Or.inl ⟨("V D=+").data, by simp [Record.writeStr, crlf]⟩
      | Ccw => exact Or.inl ⟨("V D=-").data, by simp [Record.writeStr, crlf]⟩
    | Point c =>
      exact Or.inl ⟨("DP ").data ++ c.write, by
        simp [Record.writeStr, List.append_assoc]⟩
    | CircleRadius r =>
      exact Or.inl ⟨("DC ").data ++ f32Str r, by
        simp [Record.writeStr, List.append_assoc]⟩
    | ArcSegmentData r a1 a2 =>
      exact Or.inl ⟨("DA ").data ++ f32Str r ++ (", ").data ++ f32Str a1 ++
        (", ").data ++ f32Str a2, by simp [Record.writeStr, List.append_assoc]⟩
    | ArcData s e =>
      exact Or.inl ⟨("DB ").data ++ s.write ++ (", ").data ++ e.write, by
        simp [Record.writeStr, List.append_assoc]⟩
    | Empty => exact Or.inl ⟨[], rfl⟩
    | Comment => exact Or.inr (by simp)
    | LabelPlacement => exact Or.inr (by simp)
    | Pen => exact Or.inr (by simp)
    | Brush => exact Or.inr (by simp)
  rcases hm r with h | h
  · exact h
  · exfalso
    rcases hr with h1 | h1 | h1 | h1 | h1 | h1 | h1 | h1 | h1 | h1
    · subst h1; rcases h with h | h | h | h <;> cases h
    · cases htype : a.type_ <;> rw [htype] at h1 <;> simp at h1
      subst h1; rcases h with h | h | h | h <;> cases h
    · subst h1; rcases h with h | h | h | h <;> cases h
    · subst h1; rcases h with h | h | h | h <;> cases h
    · subst h1; rcases h with h | h | h | h <;> cases h
    · cases hf : a.frequency <;> rw [hf] at h1 <;> simp at h1
      subst h1; rcases h with h | h | h | h <;> cases h
    · cases hc : a.call_sign <;> rw [hc] at h1 <;> simp at h1
      subst h1; rcases h with h | h | h | h <;> cases h
    · cases ht : a.transponder_code <;> rw [ht] at h1 <;> simp at h1
      subst h1; rcases h with h | h | h | h <;> cases h
    · cases hat : a.activation_times <;> rw [hat] at h1 <;> simp at h1
      subst h1; rcases h with h | h | h | h <;> cases h
    · cases hgeom : a.geom with
      | Circle cp rad =>
        rw [hgeom] at h1
        simp at h1
        rcases h1 with h1 | h1 <;>
          (subst h1; rcases h with h | h | h | h <;> cases h)
      | Polygon segs =>
        rw [hgeom] at h1
        simp only [List.mem_flatten, List.mem_map] at h1
        obtain ⟨l2, ⟨seg, hseg, hl2⟩, hmem⟩ := h1
        subst hl2
        cases seg with
        | Point c =>
          simp at hmem
          subst hmem
          rcases h with h | h | h | h <;> cases h
        | ArcSegment sarc =>
          simp at hmem
          rcases hmem with h1 | h1 | h1 <;>
            (subst h1; rcases h with h | h | h | h <;> cases h)
        | Arc arc =>
          simp at hmem
          rcases hmem with h1 | h1 | h1 <;>
            (subst h1; rcases h with h | h | h | h <;> cases h)

/-- C9: the writer emits zero bytes for zero airspaces, exactly one extra
CRLF (one blank line) between consecutive airspaces and none before the
first or after the last, and every record line of an airspace ends with the
two-byte terminator CRLF. -/
theorem c9_writer_lines (a b : Airspace) (rest : List Airspace) :
    (writeAll ([] : List Airspace) = []) ∧
    (writeAll [a] = a.writeStr) ∧
    (writeAll (a :: b :: rest) = a.writeStr ++ crlf ++ writeAll (b :: rest)) ∧
    (∀ l ∈ airspaceLines a, ∃ s, l = s ++ crlf) ∧
    (a.writeStr = (airspaceLines a).flatten) := by
  refine ⟨rfl, by simp [writeAll], ?_, ?_, rfl⟩
  · show _ = _
    simp [writeAll, List.append_assoc]
  · intro l hl
    rw [airspaceLines, List.mem_map] at hl
    obtain ⟨r, hr, hw⟩ := hl
    obtain ⟨s, hs⟩ := airspaceRecords_writeStr_ends a r hr
    exact ⟨s, by rw [← hw, hs]⟩

/-- C6: for any stream made of N class-declaration blocks (an `AC` line
followed by a well-formed body of non-class lines), the iterator yields
exactly the N corresponding airspaces in input order — in particular
consecutive blocks with no separation split at each `AC` boundary and the
boundary line is neither dropped nor consumed twice. -/
theorem c6_block_count (bs : List (Str × List Str)) (as : List Airspace)
    (hlen : bs.length = as.length)
    (hall : ((bs.zip as).all fun p => blockOk p.1 p.2) = true) :
    parseAll (joinBlocks bs) = .ok as := by
  unfold parseAll
  refine parseAllAux_blocks bs as _ ?_ hlen hall
  have := joinBlocks_length_ge bs
  omega

theorem altitude_parse_dash (rest : Str) :
    Altitude.parse ('-' :: rest) = .ok (.Other ('-' :: rest)) := by
  have hg : eqIgnoreCase ('-' :: rest) (("gnd").data) = false :=
    eqIgnoreCase_head_false rest _ (by decide)
  have hs : eqIgnoreCase ('-' :: rest) (("sfc").data) = false :=
    eqIgnoreCase_head_false rest _ (by decide)
  have hu1 : eqIgnoreCase ('-' :: rest) (("unl").data) = false :=
    eqIgnoreCase_head_false rest _ (by decide)
  have hu2 : eqIgnoreCase ('-' :: rest) (("unlim").data) = false :=
    eqIgnoreCase_head_false rest _ (by decide)
  have hu3 : eqIgnoreCase ('-' :: rest) (("unltd").data) = false :=
    eqIgnoreCase_head_false rest _ (by decide)
  have hu4 : eqIgnoreCase ('-' :: rest) (("unlimited").data) = false :=
    eqIgnoreCase_head_false rest _ (by decide)
  have h0 : decide ('-' :: rest = ("0").data) = false := by simp
  have hfl : stripPrefixCi ('-' :: rest) (("fl").data) = none := by
    unfold stripPrefixCi
    rw [if_neg]
    rintro ⟨hlen, heq⟩
    have ht : ('-' :: rest).take (("fl").data).length = '-' :: rest.take 1 := rfl
    rw [ht, eqIgnoreCase_head_false _ _ (by decide)] at heq
    cases heq
  have hfind : findIdxP (fun c => !c.isDigit) ('-' :: rest) = some 0 := by
    rw [findIdxP]
    simp
  unfold Altitude.parse
  simp only [hg, hs, hu1, hu2, hu3, hu4, h0, hfl, Bool.or_false, Bool.false_or,
    Bool.false_eq_true, if_false]
  rw [hfind]
  rfl

/-- C2: altitude round trip.  `parse (write a) = .ok a` holds for `Gnd`,
`Unlimited`, every `FlightLevel n` (`n ≤ 65535`) and every nonnegative
`FeetAmsl n` / `FeetAgl n` (`n ≤ 2147483647`); for negative feet counts the
round trip fails: the leading minus sign stops the digit scan, so the text
parses to the lenient `Other` fallback instead of the original value. -/
theorem c2_altitude_roundtrip (n : ℕ) (m k : ℤ) (hn : n ≤ 65535) (h0 : 0 ≤ m)
    (hm : m ≤ 2147483647) (hk : k < 0) :
    Altitude.parse (Altitude.write .Gnd) = .ok .Gnd ∧
    Altitude.parse (Altitude.write .Unlimited) = .ok .Unlimited ∧
    Altitude.parse (Altitude.write (.FlightLevel n)) = .ok (.FlightLevel n) ∧
    Altitude.parse (Altitude.write (.FeetAmsl m)) = .ok (.FeetAmsl m) ∧
    Altitude.parse (Altitude.write (.FeetAgl m)) = .ok (.FeetAgl m) ∧
    Altitude.parse (Altitude.write (.FeetAmsl k)) =
      .ok (.Other (Altitude.write (.FeetAmsl k))) ∧
    Altitude.parse (Altitude.write (.FeetAgl k)) =
      .ok (.Other (Altitude.write (.FeetAgl k))) ∧
    Altitude.Other (Altitude.write (.FeetAmsl k)) ≠ .FeetAmsl k ∧
    Altitude.Other (Altitude.write (.FeetAgl k)) ≠ .FeetAgl k := by
  have hwAmsl : Altitude.write (.FeetAmsl k) =
      '-' :: (natDigits k.natAbs ++ ("ft AMSL").data) := by
    show intStr k ++ _ = _
    rw [intStr, if_pos hk]
    rfl
  have hwAgl : Altitude.write (.FeetAgl k) =
      '-' :: (natDigits k.natAbs ++ ("ft AGL").data) := by
    show intStr k ++ _ = _
    rw [intStr, if_pos hk]
    rfl
  refine ⟨altitude_parse_gnd, altitude_parse_unl, altitude_parse_fl hn,
    altitude_parse_Amsl h0 hm, altitude_parse_Agl h0 hm, ?_, ?_, by simp, by simp⟩
  · rw [hwAmsl]
    exact altitude_parse_dash _
  · rw [hwAgl]
    exact altitude_parse_dash _

theorem parseU16_iff (t : Str) (v : ℕ) :
    parseU16 t = some v ↔
      stripPlus t ≠ [] ∧ (∀ c ∈ stripPlus t, c.isDigit = true) ∧
      digitsVal (stripPlus t) = v ∧ v ≤ 65535 := by
  constructor
  · intro h
    rw [parseU16, parseUnsigned] at h
    split at h
    · rename_i w hw
      obtain ⟨h1, h2, h3⟩ := parseNatDigits_some hw
      split at h
      · rename_i hle
        cases h
        exact ⟨h1, h2, h3.symm, hle⟩
      · cases h
    · cases h
  · rintro ⟨h1, h2, h3, h4⟩
    rw [parseU16, parseUnsigned, parseNatDigits_of_digits h1 h2, h3]
    simp [h4]

theorem record_parse_ax (t : Str) (hne : t ≠ [])
    (hws : ∀ c ∈ t, isWs c = false) :
    Record.parse (("AX ").data ++ t) =
      (match parseU16 t with
       | some v => .ok (.TransponderCode v)
       | none => .error (("Invalid transponder code: ").data ++ t)) := by
  obtain ⟨m, d, rfl⟩ : ∃ m d, t = m ++ [d] := by
    rcases (List.eq_nil_or_concat t) with h | ⟨m, d, h⟩
    · exact absurd h hne
    · exact ⟨m, d, by simpa [List.concat_eq_append] using h⟩
  have hd : isWs d = false := hws d (by simp)
  have htrim : trim (("AX ").data ++ (m ++ [d])) = ("AX ").data ++ (m ++ [d]) := by
    have h2 := @trim_of_head_last 'A' d ('X' :: ' ' :: m) (by decide) hd
    simpa using h2
  have htr2 : trim (m ++ [d]) = m ++ [d] := trim_of_all hws
  conv_lhs => rw [Record.parse]
  rw [htrim]
  show (match parseU16 (trim (m ++ [d])) with
       | some v => (.ok (.TransponderCode v) : Except Str Record)
       | none => .error (("Invalid transponder code: ").data ++ trim (m ++ [d]))) = _
  rw [htr2]

/-- C10: an `AX` line with whitespace-free payload `t` succeeds exactly when
`t` is an optional leading `+` followed by decimal digits whose value fits
in 16 bits, yielding `TransponderCode`; otherwise it is a hard failure
naming the invalid transponder code, never a lenient fallback.  The spec
says only plain decimal payloads are accepted, but Rust `u16::from_str`
(and this model) also accepts one leading `+`. -/
theorem c10_transponder (t : Str) (v : ℕ) (hne : t ≠ [])
    (hws : ∀ c ∈ t, isWs c = false) :
    (Record.parse (("AX ").data ++ t) = .ok (.TransponderCode v) ↔
      parseU16 t = some v) ∧
    (parseU16 t = none →
      Record.parse (("AX ").data ++ t) =
        .error (("Invalid transponder code: ").data ++ t)) ∧
    (parseU16 t = some v ↔
      stripPlus t ≠ [] ∧ (∀ c ∈ stripPlus t, c.isDigit = true) ∧
      digitsVal (stripPlus t) = v ∧ v ≤ 65535) ∧
    (∀ r, Record.parse (("AX ").data ++ t) = .ok r →
      ∃ w, r = .TransponderCode w) := by
  have hax := record_parse_ax t hne hws
  refine ⟨?_, ?_, parseU16_iff t v, ?_⟩
  · rw [hax]
    cases hp : parseU16 t with
    | some w =>
      simp only [hp]
      constructor
      · intro h
        injection h with h
        injection h with h
        rw [h]
      · intro h
        injection h with h
        rw [h]
    | none =>
      simp only [hp]
      constructor
      · intro h
        cases h
      · intro h
        cases h
  · intro hp
    rw [hax, hp]
  · intro r hr
    rw [hax] at hr
    cases hp : parseU16 t with
    | some w =>
      rw [hp] at hr
      injection hr with hr
      exact ⟨w, hr.symm⟩
    | none =>
      rw [hp] at hr
      cases hr

/-- C4: each once-only field rejects a second set with an error naming the
field (`Could not set <field> (already defined)`).  This holds in `consume`
for all nine once-only fields including class, but the driver intercepts a
class record whenever a class is already set and finishes the airspace
instead, so the duplicate-class branch is unreachable from the driver: a
stream with two `AC` lines is not rejected with a class-naming message
(see the counterexample), while e.g. two `AN` lines are. -/
theorem c4_once_only (acc : Acc) (l : Str) (t : List Str) :
    (∀ s, acc.name.isSome = true → consume acc (.AirspaceName s) =
      .error (("Could not set name (already defined)").data)) ∧
    (∀ c, acc.cls.isSome = true → consume acc (.AirspaceClass c) =
      .error (("Could not set class (already defined)").data)) ∧
    (∀ a, acc.lower_bound.isSome = true → consume acc (.LowerBound a) =
      .error (("Could not set lower_bound (already defined)").data)) ∧
    (∀ a, acc.upper_bound.isSome = true → consume acc (.UpperBound a) =
      .error (("Could not set upper_bound (already defined)").data)) ∧
    (∀ s, acc.type_.isSome = true → consume acc (.AirspaceType s) =
      .error (("Could not set type (already defined)").data)) ∧
    (∀ s, acc.frequency.isSome = true → consume acc (.Frequency s) =
      .error (("Could not set frequency (already defined)").data)) ∧
    (∀ s, acc.call_sign.isSome = true → consume acc (.CallSign s) =
      .error (("Could not set call_sign (already defined)").data)) ∧
    (∀ n, acc.transponder_code.isSome = true → consume acc (.TransponderCode n) =
      .error (("Could not set transponder_code (already defined)").data)) ∧
    (∀ tm, acc.activation_times.isSome = true → consume acc (.ActivationTimes tm) =
      .error (("Could not set activation_times (already defined)").data)) ∧
    (∀ c c2, acc.cls = some c → Record.parse (stripBom l) = .ok (.AirspaceClass c2) →
      nextAirspace acc (l :: t) =
        (match finish acc c with
         | .ok a => .ok (some a, l :: t)
         | .error e => .error e)) ∧
    (parseAll [("AC A").data, ("AN X").data, ("AN Y").data] =
      .error (("Could not set name (already defined)").data)) := by
  refine ⟨?_, ?_, ?_, ?_, ?_, ?_, ?_, ?_, ?_, ?_, rfl⟩
  · intro s h; simp [consume, h]
  · intro c h; simp [consume, h]
  · intro a h; simp [consume, h]
  · intro a h; simp [consume, h]
  · intro s h; simp [consume, h]
  · intro s h; simp [consume, h]
  · intro s h; simp [consume, h]
  · intro n h; simp [consume, h]
  · intro tm h; simp [consume, h]
  · intro c c2 hcls hp
    conv_lhs => rw [nextAirspace]
    simp only [hp, hcls]

/-- C1: end-of-input behaviour of the driver.  The driver yields at EOF
exactly when the class field is set: a line stream with no class
declaration ends with `.ok (none, [])` no matter which other fields the
records set (so a non-empty accumulator can be dropped silently, contra the
spec), while after a class declaration the accumulated airspace is finished
and yielded (or finishing fails hard). -/
theorem c1_eof_yield (ls : List Str) (acc' : Acc) (acLine : Str)
    (c : OpenAir.Class) (body : List Str) (acc2 : Acc) :
    ((∀ l ∈ ls, nonClassLine l = true) → accumLines Acc.init ls = .ok acc' →
      nextAirspace Acc.init ls = .ok (none, [])) ∧
    (Record.parse (stripBom acLine) = .ok (.AirspaceClass c) →
      (∀ l ∈ body, nonClassLine l = true) →
      accumLines { Acc.init with cls := some c } body = .ok acc2 →
      nextAirspace Acc.init (acLine :: body) =
        (match finish acc2 c with
         | .ok a => .ok (some a, [])
         | .error e => .error e)) :=
  ⟨fun hnc hacc => nextAirspace_eof_no_class hnc hacc,
   fun hac hnc hacc => nextAirspace_eof_with_class hac hnc hacc⟩

theorem c1_eof_yield_cex :
    accumLines Acc.init [("AN Test").data] =
      .ok { Acc.init with name := some (("Test").data) } ∧
    ({ Acc.init with name := some (("Test").data) } : Acc) ≠ Acc.init ∧
    nextAirspace Acc.init [("AN Test").data] = .ok (none, []) :=
  ⟨rfl, by decide, rfl⟩

theorem c4_once_only_cex :
    parseAll [("AC A").data, ("AC D").data] = .error (("Missing name").data) ∧
    ("Missing name").data ≠ ("Could not set class (already defined)").data :=
  ⟨rfl, by decide⟩

theorem c2_altitude_roundtrip_cex :
    Altitude.parse (Altitude.write (.FeetAmsl (-200))) =
      .ok (.Other (Altitude.write (.FeetAmsl (-200)))) ∧
    Altitude.Other (Altitude.write (.FeetAmsl (-200))) ≠ .FeetAmsl (-200) := by
  have hw : Altitude.write (.FeetAmsl (-200)) =
      '-' :: (natDigits 200 ++ ("ft AMSL").data) := by
    show intStr (-200) ++ ("ft AMSL").data = _
    rw [intStr, if_pos (by norm_num)]
    rfl
  constructor
  · conv_lhs => rw [hw]
    rw [hw]
    exact altitude_parse_dash _
  · simp

theorem c8_angle_range_cex :
    validate_angle .nan = .ok .nan ∧ (∀ x : ℚ, F32.nan ≠ .finite x) :=
  ⟨rfl, fun _ h => F32.noConfusion h⟩

theorem c10_transponder_cex :
    Record.parse (("AX +7000").data) = .ok (.TransponderCode 7000) ∧
    ¬(∀ c ∈ ("+7000").data, c.isDigit = true) :=
  ⟨rfl, by decide⟩

theorem c2_altitude_roundtrip_witness :
    Altitude.parse (Altitude.write (.FlightLevel 100)) = .ok (.FlightLevel 100) ∧
    Altitude.parse (Altitude.write (.FeetAmsl 1000)) = .ok (.FeetAmsl 1000) ∧
    Altitude.parse (Altitude.write (.FeetAmsl (-200))) =
      .ok (.Other (Altitude.write (.FeetAmsl (-200)))) := by
  have h := c2_altitude_roundtrip 100 1000 (-200) (by norm_num) (by norm_num)
    (by norm_num) (by norm_num)
  exact ⟨h.2.2.1, h.2.2.2.1, h.2.2.2.2.2.1⟩

theorem c3_coord_bounds_witness :
    |(46 : ℚ) + 51/60 + 44/3600| < 92 ∧ |(9 : ℚ) + 19/60 + 42/3600| < 182 :=
  @c3_coord_bounds (("46:51:44 N 009:19:42 E").data)
    ⟨(46 : ℚ) + 51/60 + 44/3600, (9 : ℚ) + 19/60 + 42/3600⟩ rfl

theorem c5_coord_roundtrip_witness :
    Coord.parse (Coord.write ⟨((168704 : ℤ) : ℚ) / 3600,
      ((33582 : ℤ) : ℚ) / 3600⟩) =
      .ok ⟨((168704 : ℤ) : ℚ) / 3600, ((33582 : ℤ) : ℚ) / 3600⟩ :=
  c5_coord_roundtrip 168704 33582 (by decide) (by decide)

theorem blockOk_intro {b : Str × List Str} {a : Airspace} {c : OpenAir.Class}
    {acc' : Acc}
    (h1 : Record.parse (stripBom b.1) = .ok (.AirspaceClass c))
    (h2 : ∀ l ∈ b.2, nonClassLine l = true)
    (h3 : accumLines { Acc.init with cls := some c } b.2 = .ok acc')
    (h4 : finish acc' c = .ok a) : blockOk b a = true := by
  unfold blockOk
  simp only [h1, h3]
  rw [Bool.and_eq_true]
  exact ⟨by simpa [List.all_eq_true] using h2, decide_eq_true h4⟩

theorem c6_block_count_witness :
    parseAll (joinBlocks
      [(("AC A").data, [("AN X").data, ("AL GND").data, ("AH UNL").data,
         ("DP 47:00:00 N 008:00:00 E").data]),
       (("AC B").data, [("AN Y").data, ("AL GND").data, ("AH UNL").data,
         ("DP 46:00:00 N 008:00:00 E").data])]) =
    .ok [⟨("X").data, .A, none, .Gnd, .Unlimited,
          .Polygon [.Point ⟨((47:ℚ) + (0:ℚ)/60 + (0:ℚ)/3600), ((8:ℚ) + (0:ℚ)/60 + (0:ℚ)/3600)⟩], none, none, none, none⟩,
         ⟨("Y").data, .B, none, .Gnd, .Unlimited,
          .Polygon [.Point ⟨((46:ℚ) + (0:ℚ)/60 + (0:ℚ)/3600), ((8:ℚ) + (0:ℚ)/60 + (0:ℚ)/3600)⟩], none, none, none, none⟩] := by
  have hb1 : blockOk
      (("AC A").data, [("AN X").data, ("AL GND").data, ("AH UNL").data,
        ("DP 47:00:00 N 008:00:00 E").data])
      ⟨("X").data, .A, none, .Gnd, .Unlimited,
        .Polygon [.Point ⟨((47:ℚ) + (0:ℚ)/60 + (0:ℚ)/3600), ((8:ℚ) + (0:ℚ)/60 + (0:ℚ)/3600)⟩], none, none, none, none⟩ = true := by
    refine blockOk_intro rfl ?_
      (rfl : accumLines { Acc.init with cls := some Class.A }
        [("AN X").data, ("AL GND").data, ("AH UNL").data,
         ("DP 47:00:00 N 008:00:00 E").data] = .ok
        { Acc.init with
          cls := some Class.A
          name := some (("X").data)
          lower_bound := some .Gnd
          upper_bound := some .Unlimited
          geom := some (.Polygon [.Point ⟨((47:ℚ) + (0:ℚ)/60 + (0:ℚ)/3600), ((8:ℚ) + (0:ℚ)/60 + (0:ℚ)/3600)⟩]) }) rfl
    intro l hl
    fin_cases hl <;> rfl
  have hb2 : blockOk
      (("AC B").data, [("AN Y").data, ("AL GND").data, ("AH UNL").data,
        ("DP 46:00:00 N 008:00:00 E").data])
      ⟨("Y").data, .B, none, .Gnd, .Unlimited,
        .Polygon [.Point ⟨((46:ℚ) + (0:ℚ)/60 + (0:ℚ)/3600), ((8:ℚ) + (0:ℚ)/60 + (0:ℚ)/3600)⟩], none, none, none, none⟩ = true := by
    refine blockOk_intro rfl ?_
      (rfl : accumLines { Acc.init with cls := some Class.B }
        [("AN Y").data, ("AL GND").data, ("AH UNL").data,
         ("DP 46:00:00 N 008:00:00 E").data] = .ok
        { Acc.init with
          cls := some Class.B
          name := some (("Y").data)
          lower_bound := some .Gnd
          upper_bound := some .Unlimited
          geom := some (.Polygon [.Point ⟨((46:ℚ) + (0:ℚ)/60 + (0:ℚ)/3600), ((8:ℚ) + (0:ℚ)/60 + (0:ℚ)/3600)⟩]) }) rfl
    intro l hl
    fin_cases hl <;> rfl
  refine c6_block_count _ _ rfl ?_
  rw [List.zip_cons_cons, List.zip_cons_cons, List.zip_nil_right,
    List.all_cons, List.all_cons, List.all_nil, hb1, hb2]
  rfl

theorem c7_circle_rules_witness :
    consume { Acc.init with geom := some (.Circle ⟨47, 8⟩ (.finite 5)) }
      (.Point ⟨46, 8⟩) = .error (("Cannot add a point to a circle").data) ∧
    consume { Acc.init with var_x := some ⟨47, 8⟩ } (.CircleRadius (.finite 5)) =
      .ok { Acc.init with
        var_x := some ⟨47, 8⟩
        geom := some (.Circle ⟨47, 8⟩ (.finite 5)) } :=
  ⟨(c7_circle_rules _).1 ⟨47, 8⟩ (.finite 5) ⟨46, 8⟩ rfl,
   (c7_circle_rules _).2.2.2.2.2 ⟨47, 8⟩ (.finite 5) rfl rfl⟩

theorem c8_angle_range_witness :
    validate_angle (.finite 360) = .ok (.finite 360) :=
  (c8_angle_range (.finite 360)).2.2.2

theorem c10_transponder_witness :
    Record.parse (("AX 7000").data) = .ok (.TransponderCode 7000) :=
  ((c10_transponder (("7000").data) 7000 (by decide) (by decide)).1).mpr rfl

theorem c4_once_only_witness :
    consume { Acc.init with name := some (("X").data) }
      (.AirspaceName (("Y").data)) =
      .error (("Could not set name (already defined)").data) :=
  (c4_once_only { Acc.init with name := some (("X").data) } [] []).1 (("Y").data) rfl

theorem c9_writer_lines_witness :
    ∃ s, (("AC C\r\n").data) = s ++ crlf :=
  (c9_writer_lines ⟨("N1").data, .C, none, .Gnd, .Unlimited,
      .Polygon [], none, none, none, none⟩
    ⟨("N1").data, .C, none, .Gnd, .Unlimited,
      .Polygon [], none, none, none, none⟩ []).2.2.2.1
    (("AC C\r\n").data) (List.Mem.head _)

theorem c1_eof_yield_witness :
    nextAirspace Acc.init [("AN Test").data] = .ok (none, []) ∧
    nextAirspace Acc.init [("AC A").data, ("AN X").data, ("AL GND").data,
      ("AH UNL").data, ("DP 47:00:00 N 008:00:00 E").data] =
      .ok (some ⟨("X").data, .A, none, .Gnd, .Unlimited,
        .Polygon [.Point ⟨((47:ℚ) + (0:ℚ)/60 + (0:ℚ)/3600),
          ((8:ℚ) + (0:ℚ)/60 + (0:ℚ)/3600)⟩],
        none, none, none, none⟩, []) := by
  constructor
  · exact (c1_eof_yield [("AN Test").data]
      { Acc.init with name := some (("Test").data) } [] .A [] Acc.init).1
      (by intro l hl; fin_cases hl <;> rfl) rfl
  · have h := (c1_eof_yield [] Acc.init (("AC A").data) .A
      [("AN X").data, ("AL GND").data, ("AH UNL").data,
       ("DP 47:00:00 N 008:00:00 E").data] _).2 rfl
      (by intro l hl; fin_cases hl <;> rfl)
      (rfl : accumLines { Acc.init with cls := some Class.A }
        [("AN X").data, ("AL GND").data, ("AH UNL").data,
         ("DP 47:00:00 N 008:00:00 E").data] = .ok
        { Acc.init with
          cls := some Class.A
          name := some (("X").data)
          lower_bound := some .Gnd
          upper_bound := some .Unlimited
          geom := some (.Polygon [.Point ⟨((47:ℚ) + (0:ℚ)/60 + (0:ℚ)/3600),
            ((8:ℚ) + (0:ℚ)/60 + (0:ℚ)/3600)⟩]) })
    rw [h]
    rfl

end OpenAir
